import Mathlib

/-!
Shallow embedding of `src/report_comparator.py` (class `ReportComparator` and
the module-level helpers).  Tables model pandas `DataFrame`s: a list of column
names plus a list of rows, where each row is an association list from column
name to cell value.  Cell values are strings, rationals (modelling Python
floats exactly on the decimal inputs the program handles) or null (NaN/None).
Fallible pandas operations are modelled in `Except`: a thrown Python exception
(KeyError, ValueError, TypeError, FileNotFoundError) is an `Except.error`.
-/

/-- A cell of a table: null (NaN/None), a string, or a number (Python float,
modelled as an exact rational). -/
inductive Value where
  | null : Value
  | str : String → Value
  | num : ℚ → Value
deriving DecidableEq

/-- A row: association list from column name to value (first binding wins on
lookup, as for a pandas Series indexed by unique labels; duplicate labels can
arise only from the final `rename`, after which nothing is looked up). -/
abbrev Row : Type := List (String × Value)

/-- A pandas DataFrame: column names in order, and the rows. -/
structure Table where
  cols : List String
  rows : List Row
deriving DecidableEq

/-- Python exceptions raised by the code paths we model. -/
inductive Err where
  | keyError : Err
  | valueError : Err
  | typeError : Err
  | fileNotFound : Err
deriving DecidableEq

/-- Multiplication on `ℚ` by numerator/denominator arithmetic (definitionally
evaluable; equal to `*` by `qmul_eq`). -/
def qmul (a b : ℚ) : ℚ :=
  Rat.divInt (a.num * b.num) ((a.den : ℤ) * (b.den : ℤ))

/-- Subtraction on `ℚ` by numerator/denominator arithmetic (definitionally
evaluable; equal to `-` by `qsub_eq`). -/
def qsub (a b : ℚ) : ℚ :=
  Rat.divInt (a.num * (b.den : ℤ) - b.num * (a.den : ℤ)) ((a.den : ℤ) * (b.den : ℤ))

/-- Negation on `ℚ` by numerator arithmetic. -/
def qneg (a : ℚ) : ℚ :=
  Rat.divInt (-a.num) (a.den : ℤ)

/-- Lookup of a column value in a row, defaulting to null when the label is
absent (used where pandas is total, e.g. values feeding a constructed row). -/
def getVD (r : Row) (c : String) : Value :=
  (((r.find? (fun p => decide (p.1 = c)))).map Prod.snd).getD Value.null

/-- Lookup of a column value in a row, raising KeyError when absent
(`x['match']` inside the `apply` lambda). -/
def getItem (r : Row) (c : String) : Except Err Value :=
  match r.find? (fun p => decide (p.1 = c)) with
  | some p => .ok p.2
  | none => .error .keyError

/-- `pd.notnull`: false exactly on NaN/None. -/
def notnullV : Value → Bool
  | .null => false
  | _ => true

/-- Python `str.lower` (ASCII, which is all the program feeds it). -/
def pyLower (s : String) : String :=
  String.mk (s.data.map Char.toLower)

/-- Python `str.upper`. -/
def pyUpper (s : String) : String :=
  String.mk (s.data.map Char.toUpper)

/-- `Series.str.upper()` elementwise: strings are uppercased, every non-string
cell becomes NaN. -/
def strUpperV : Value → Value
  | .str s => .str (pyUpper s)
  | _ => .null

/-- `Series.str.lower()` elementwise. -/
def strLowerV : Value → Value
  | .str s => .str (pyLower s)
  | _ => .null

/-- The row predicate of `df[df['metric'].str.lower() == filter.lower()]`:
a non-string metric cell compares as NaN, i.e. never equal. -/
def metricMatch (r : Row) (filt : String) : Bool :=
  match getVD r "metric" with
  | .str s => pyLower s == pyLower filt
  | _ => false

/-- Lines 71 / 88: boolean-mask filtering on the metric label.  Accessing the
`metric` column of a frame that lacks it raises KeyError. -/
def filterByMetric (t : Table) (filt : String) : Except Err Table :=
  if "metric" ∈ t.cols then
    .ok ⟨t.cols, t.rows.filter (fun r => metricMatch r filt)⟩
  else .error .keyError

/-- The row produced by selecting a column subset. -/
def restrictRow (cols : List String) (r : Row) : Row :=
  cols.map (fun c => (c, getVD r c))

/-- `df[[c1, ..., cn]]` (+ `.copy()`): column projection, KeyError if any
requested column is absent. -/
def selectCols (t : Table) (cols : List String) : Except Err Table :=
  if cols.all (fun c => decide (c ∈ t.cols)) then
    .ok ⟨cols, t.rows.map (restrictRow cols)⟩
  else .error .keyError

/-- One row of `df[c] = df[c].map f`-style in-place column assignment. -/
def mapRowCol (c : String) (f : Value → Value) (r : Row) : Row :=
  r.map (fun p => if p.1 = c then (p.1, f p.2) else p)

/-- Lines 83-84: `df['country'] = df['country'].str.upper()` etc.; reading a
missing column raises KeyError. -/
def mapColE (t : Table) (c : String) (f : Value → Value) : Except Err Table :=
  if c ∈ t.cols then .ok ⟨t.cols, t.rows.map (mapRowCol c f)⟩
  else .error .keyError

/-- Python `round` to 0 digits: nearest integer, ties to even. -/
def roundHalfEven (x : ℚ) : ℤ :=
  let f : ℤ := ⌊x⌋
  let r : ℚ := qsub x ((f : ℤ) : ℚ)
  if r < Rat.divInt 1 2 then f
  else if Rat.divInt 1 2 < r then f + 1
  else if f % 2 = 0 then f else f + 1

/-- Python `round(x, 2)`: nearest multiple of 1/100, ties to even. -/
def roundTwo (x : ℚ) : ℚ :=
  Rat.divInt (roundHalfEven (qmul x 100)) 100

/-- Python `f"{x:.2f}"`: fixed-point rendering with two decimals
(round half to even, sign in front). -/
def formatFixed2 (x : ℚ) : String :=
  let n : ℤ := roundHalfEven (qmul x 100)
  let sgn : String := if n < 0 then "-" else ""
  let a : ℕ := n.natAbs
  sgn ++ toString (a / 100) ++ "." ++ (if a % 100 < 10 then "0" else "") ++ toString (a % 100)

/-- Python `v * 100` on a cell: numbers multiply, a string is repeated 100
times (no exception), None would raise TypeError. -/
def pyMulHundred : Value → Except Err Value
  | .num q => .ok (.num (qmul q 100))
  | .str s => .ok (.str (String.join (List.replicate 100 s)))
  | .null => .error .typeError

/-- Formatting a cell with `:.2f`: only numbers format; a string raises
ValueError ("Unknown format code 'f'"), None raises TypeError. -/
def pyFormatTwo : Value → Except Err String
  | .num q => .ok (formatFixed2 q)
  | .str _ => .error .valueError
  | .null => .error .typeError

/-- Python `a - b` on cells: numeric subtraction, anything else TypeError. -/
def pySubNum : Value → Value → Except Err ℚ
  | .num a, .num b => .ok (qsub a b)
  | _, _ => .error .typeError

/-- The lambda of lines 105-110:
`f"{x['match']*100:.2f} ({int(round(x['match']*100 - x['metric_value'], 0))})"`
when both `match` and `metric_value` are non-null, else None.  The condition
is evaluated first with short-circuit `and`; the two lookups inside the
f-string re-read the same immutable Series, so they are reused here. -/
def rowLambda (r : Row) : Except Err Value := do
  let m ← getItem r "match"
  if notnullV m then do
    let mv ← getItem r "metric_value"
    if notnullV mv then do
      let p1 ← pyMulHundred m
      let s1 ← pyFormatTwo p1
      let p2 ← pyMulHundred m
      let d ← pySubNum p2 mv
      pure (Value.str (s1 ++ " (" ++ toString (roundHalfEven d) ++ ")"))
    else pure Value.null
  else pure Value.null

/-- Effectful map over a list in `Except` (pandas `apply` aborts the whole
operation at the first raising row). -/
def exMapM {α β : Type} (g : α → Except Err β) : List α → Except Err (List β)
  | [] => .ok []
  | a :: as => do
    let b ← g a
    let bs ← exMapM g as
    pure (b :: bs)

/-- Lines 105-110: `comparison['comparison_metric_value'] = comparison.apply(lambda ..., axis=1)`,
appending the derived column at the end of the frame. -/
def addComparisonCol (t : Table) : Except Err Table := do
  let rows ← exMapM (fun r => do
    let v ← rowLambda r
    pure (r ++ [("comparison_metric_value", v)])) t.rows
  pure ⟨t.cols ++ ["comparison_metric_value"], rows⟩

/-- ASCII digit test. -/
def isDigitChar (c : Char) : Bool :=
  decide ('0' ≤ c) && decide (c ≤ '9')

/-- Value of a digit string. -/
def natOfDigits (cs : List Char) : ℕ :=
  cs.foldl (fun a c => a * 10 + (c.toNat - 48)) 0

/-- Whitespace stripped by Python `float(str)`. -/
def isPyWs (c : Char) : Bool :=
  c == ' ' || c == '\t' || c == '\n' || c == '\r'

/-- Parse an unsigned decimal mantissa `digits [. digits]` (at least one digit
overall), returning its value and the rest of the input. -/
def parseMantissa (cs : List Char) : Option (ℚ × List Char) :=
  let intPart := cs.takeWhile isDigitChar
  let rest := cs.dropWhile isDigitChar
  match rest with
  | '.' :: rest2 =>
    let frac := rest2.takeWhile isDigitChar
    let rest3 := rest2.dropWhile isDigitChar
    if intPart.isEmpty && frac.isEmpty then none
    else some (Rat.divInt ((natOfDigits intPart * 10 ^ frac.length + natOfDigits frac : ℕ) : ℤ)
      (((10 : ℕ) ^ frac.length : ℕ) : ℤ), rest3)
  | _ =>
    if intPart.isEmpty then none
    else some (Rat.divInt ((natOfDigits intPart : ℕ) : ℤ) 1, rest)

/-- Parse an optional exponent part: `e`, an optional sign, then digits. -/
def parseExponent (cs : List Char) : Option (ℤ × List Char) :=
  match cs with
  | 'e' :: rest | 'E' :: rest =>
    let (sgn, rest2) : ℤ × List Char :=
      match rest with
      | '+' :: r => (1, r)
      | '-' :: r => (-1, r)
      | r => (1, r)
    let ds := rest2.takeWhile isDigitChar
    if ds.isEmpty then none
    else some (sgn * (natOfDigits ds : ℤ), rest2.dropWhile isDigitChar)
  | _ => some (0, cs)

/-- Python `float(s)` on ordinary decimal notation (the forms the reports
contain); `inf`/`nan` literals and digit underscores are not modelled.  Returns
none where Python raises ValueError. -/
def pyFloatParse (s : String) : Option ℚ :=
  let cs := (s.data.dropWhile isPyWs).reverse.dropWhile isPyWs |>.reverse
  let (neg, cs1) : Bool × List Char :=
    match cs with
    | '+' :: r => (false, r)
    | '-' :: r => (true, r)
    | r => (false, r)
  match parseMantissa cs1 with
  | none => none
  | some (m, rest) =>
    match parseExponent rest with
    | none => none
    | some (e, rest2) =>
      if rest2.isEmpty then
        some (let mm := if neg then qneg m else m
          if 0 ≤ e then qmul mm (Rat.divInt ((10 : ℤ) ^ e.toNat) 1)
          else qmul mm (Rat.divInt 1 ((10 : ℤ) ^ (-e).toNat)))
      else none

/-- `Series.astype(float)` on one cell: NaN stays NaN, numbers pass through,
strings are parsed with `float(s)` and raise ValueError when unparsable. -/
def astypeFloat : Value → Except Err Value
  | .null => .ok .null
  | .num q => .ok (.num q)
  | .str s =>
    match pyFloatParse s with
    | some q => .ok (.num q)
    | none => .error .valueError

/-- One cell of `round(col.astype(float) [* 100], 2)`; NaN propagates. -/
def procCell (mulHundred : Bool) (v : Value) : Except Err Value := do
  let v' ← astypeFloat v
  match v' with
  | .null => pure .null
  | .num q => pure (.num (roundTwo (if mulHundred then qmul q 100 else q)))
  | .str s => pure (.str s)

/-- Apply `procCell` to the cells of one column of a row. -/
def procRow (c : String) (mulHundred : Bool) (r : Row) : Except Err Row :=
  exMapM (fun p =>
    if p.1 = c then do
      let v ← procCell mulHundred p.2
      pure (p.1, v)
    else pure p) r

/-- Lines 115-116: `comparison[c] = round(comparison[c].astype(float) [* 100], 2)`;
KeyError if the column is absent, ValueError if a cell fails to coerce. -/
def processNumCol (t : Table) (c : String) (mulHundred : Bool) : Except Err Table :=
  if c ∈ t.cols then
    match exMapM (procRow c mulHundred) t.rows with
    | .ok rs => .ok ⟨t.cols, rs⟩
    | .error e => .error e
  else .error .keyError

/-- Suffixing of a left-frame column by `pd.merge(..., suffixes=('_existing', '_metric'))`:
non-key columns also present on the right get `_existing`. -/
def lsuffix (rcols : List String) (key : String) (c : String) : String :=
  if c ≠ key ∧ c ∈ rcols then c ++ "_existing" else c

/-- Suffixing of a right-frame column: non-key columns also present on the
left get `_metric`. -/
def rsuffix (lcols : List String) (key : String) (c : String) : String :=
  if c ≠ key ∧ c ∈ lcols then c ++ "_metric" else c

/-- The left-frame part of a merged row. -/
def leftPart (lcols rcols : List String) (key : String) (lr : Row) : Row :=
  lcols.map (fun c => (lsuffix rcols key c, getVD lr c))

/-- The right-frame part of a merged row (the key column is not repeated). -/
def rightPart (lcols rcols : List String) (key : String) (rr : Row) : Row :=
  (rcols.filter (fun c => decide (c ≠ key))).map (fun c => (rsuffix lcols key c, getVD rr c))

/-- The all-null right-frame part, for a left row with no match. -/
def rightNullPart (lcols rcols : List String) (key : String) : Row :=
  (rcols.filter (fun c => decide (c ≠ key))).map (fun c => (rsuffix lcols key c, Value.null))

/-- The left-frame part for a right row with no match: null except the key. -/
def leftNullPart (lcols rcols : List String) (key : String) (keyval : Value) : Row :=
  lcols.map (fun c => (lsuffix rcols key c, if c = key then keyval else Value.null))

/-- Concatenation of the images of a list-valued function. -/
def joinMap {α β : Type} (f : α → List β) : List α → List β
  | [] => []
  | a :: as => f a ++ joinMap f as

/-- Line 102: `pd.merge(left, right, on=['country'], how='outer',
suffixes=('_existing', '_metric'))`.  Full outer join: each left row is paired
with every right row sharing its key (or with nulls when none does), then the
right rows with no left partner follow, nulls on the left side.  Row order is
the documented choice for this embedding (spec 4.2 leaves outer-join order to
the implementation). -/
def mergeOuter (l r : Table) (key : String) : Table :=
  let cols := l.cols.map (lsuffix r.cols key)
    ++ (r.cols.filter (fun c => decide (c ≠ key))).map (rsuffix l.cols key)
  let matchesOf := fun (lr : Row) =>
    r.rows.filter (fun rr => decide (getVD rr key = getVD lr key))
  let rows :=
    joinMap (fun lr =>
      let ms := matchesOf lr
      if ms.isEmpty then [leftPart l.cols r.cols key lr ++ rightNullPart l.cols r.cols key]
      else ms.map (fun rr => leftPart l.cols r.cols key lr ++ rightPart l.cols r.cols key rr)) l.rows
    ++ (r.rows.filter (fun rr =>
          ! l.rows.any (fun lr => decide (getVD lr key = getVD rr key)))).map
        (fun rr => leftNullPart l.cols r.cols key (getVD rr key) ++ rightPart l.cols r.cols key rr)
  ⟨cols, rows⟩

/-- Rename one label according to the rename mapping (pandas `rename` leaves
labels not in the mapping unchanged and renames every occurrence). -/
def renameKey (ren : List (String × String)) (c : String) : String :=
  match ren.find? (fun p => decide (p.1 = c)) with
  | some p => p.2
  | none => c

/-- Rename the labels of one row. -/
def renameRow (ren : List (String × String)) (r : Row) : Row :=
  r.map (fun p => (renameKey ren p.1, p.2))

/-- Line 117: `comparison.rename(columns={...})`. -/
def renameCols (t : Table) (ren : List (String × String)) : Table :=
  ⟨t.cols.map (renameKey ren), t.rows.map (renameRow ren)⟩

/-- Lines 72-82: the baseline projection columns. -/
def existingCols : List String :=
  ["run_id", "metric", "country", "provider", "product", "sampling_run_id",
   "metric_value", "metric_value_lower", "metric_value_upper"]

/-- Lines 89-100: the new-metric projection columns. -/
def metricCols : List String :=
  ["provider_release_version", "metric", "sample_size", "match", "lower", "upper",
   "matching_run_id", "provider_id", "country", "sampling_run_id"]

/-- Lines 111-113: the output column selection. -/
def interestingColumns : List String :=
  ["metric_existing", "country", "provider", "product", "sample_size",
   "metric_value", "match", "matching_run_id", "comparison_metric_value"]

/-- The filter/projection step applied to each input (lines 71-82 for the
baseline, 88-100 for the new-metric report): metric-label filter, then
column projection. -/
def projectReport (t : Table) (filt : String) (cols : List String) : Except Err Table :=
  match filterByMetric t filt with
  | .error e => .error e
  | .ok tf => selectCols tf cols

/-- Lines 71-110 of `compare_reports`: project both inputs (with the
baseline's country uppercased and metric lowercased), outer-join on country
and compute the derived `comparison_metric_value` column. -/
def comparisonJoined (existing_sample metricReport : Table) (filt : String) : Except Err Table :=
  match projectReport existing_sample filt existingCols with
  | .error e => .error e
  | .ok existing_sel =>
    match mapColE existing_sel "country" strUpperV with
    | .error e => .error e
    | .ok e1 =>
      match mapColE e1 "metric" strLowerV with
      | .error e => .error e
      | .ok existing_processed =>
        match projectReport metricReport filt metricCols with
        | .error e => .error e
        | .ok metric_processed =>
          addComparisonCol (mergeOuter existing_processed metric_processed "country")

/-- Lines 58-119: `ReportComparator.compare_reports`. -/
def compare_reports (existing_sample metricReport : Table) (filt : String) : Except Err Table :=
  match comparisonJoined existing_sample metricReport filt with
  | .error e => .error e
  | .ok comparison1 =>
    match selectCols comparison1 interestingColumns with
    | .error e => .error e
    | .ok comparison2 =>
      match processNumCol comparison2 "match" true with
      | .error e => .error e
      | .ok comparison3 =>
        match processNumCol comparison3 "metric_value" false with
        | .error e => .error e
        | .ok comparison4 =>
          .ok (renameCols comparison4 [("match", "metric_new"), ("metric_value", "metric_existing")])

/-- Non-overlapping left-to-right removal of the pattern `../`, i.e. Python's
`s.replace('../', '')` for this fixed pattern. -/
def removeDotDotSlash : List Char → List Char
  | [] => []
  | '.' :: '.' :: '/' :: rest => removeDotDotSlash rest
  | c :: rest => c :: removeDotDotSlash rest

/-- Lines 133 / 204: `path.replace('../', '')` applied to the configured
baseline path before it is used. -/
def stripDotDot (p : String) : String :=
  String.mk (removeDotDotSlash p.data)

/-- A filesystem access performed by the orchestration code: an existence
check (`Path.exists`) or a file load (`pd.read_csv`). -/
inductive FsEvent where
  | exist : String → FsEvent
  | load : String → FsEvent
deriving DecidableEq

/-- The path an event touches. -/
def eventPath : FsEvent → String
  | .exist p => p
  | .load p => p

/-- The configured paths used by `compare_all_reports` and
`validate_required_files` (`config['metrics'][...]['path']`). -/
structure Config where
  existing_sample : String
  asf_apa_new : String
  psf_new : String
  ssf_new : String

/-- The filesystem: which path holds which loaded table. -/
abbrev Fsys : Type := String → Option Table

/-- A computation that performs filesystem accesses and may raise. -/
def PyM (α : Type) : Type := List FsEvent × Except Err α

instance : Monad PyM where
  pure a := ([], .ok a)
  bind x f :=
    match x with
    | (es, .error e) => (es, .error e)
    | (es, .ok a) =>
      match f a with
      | (es2, r) => (es ++ es2, r)

/-- Lift a pure fallible computation. -/
def plift {α : Type} (r : Except Err α) : PyM α := ([], r)

/-- Lines 33-47: `load_report`: checks existence (one access), raises
FileNotFoundError if absent, otherwise reads the file (a second access). -/
def load_report (fs : Fsys) (p : String) : PyM Table :=
  match fs p with
  | some t => ([.exist p, .load p], .ok t)
  | none => ([.exist p], .error .fileNotFound)

/-- Lines 134-135: the explicit existence check on the baseline path. -/
def checkBaseline (fs : Fsys) (p : String) : PyM Unit :=
  match fs p with
  | some _ => ([.exist p], .ok ())
  | none => ([.exist p], .error .fileNotFound)

/-- Lines 121-178: `ReportComparator.compare_all_reports`.  The result
dictionary is the ordered association list of metric type to comparison. -/
def compare_all_reports (cfg : Config) (fs : Fsys) (metric_type : String) :
    PyM (List (String × Table)) := do
  let bpath := stripDotDot cfg.existing_sample
  let _ ← checkBaseline fs bpath
  let existing_sample ← load_report fs bpath
  if metric_type = "all" then do
    let asf_report ← load_report fs cfg.asf_apa_new
    let casf ← plift (compare_reports existing_sample asf_report "asf")
    let apa_report ← load_report fs cfg.asf_apa_new
    let capa ← plift (compare_reports existing_sample apa_report "apa")
    let psf_report ← load_report fs cfg.psf_new
    let cpsf ← plift (compare_reports existing_sample psf_report "psf")
    let ssf_report ← load_report fs cfg.ssf_new
    let cssf ← plift (compare_reports existing_sample ssf_report "ssf")
    pure [("asf", casf), ("apa", capa), ("psf", cpsf), ("ssf", cssf)]
  else if metric_type = "asf" ∨ metric_type = "apa" then do
    let report ← load_report fs cfg.asf_apa_new
    let c ← plift (compare_reports existing_sample report metric_type)
    pure [(metric_type, c)]
  else if metric_type = "psf" then do
    let report ← load_report fs cfg.psf_new
    let c ← plift (compare_reports existing_sample report "psf")
    pure [("psf", c)]
  else if metric_type = "ssf" then do
    let report ← load_report fs cfg.ssf_new
    let c ← plift (compare_reports existing_sample report "ssf")
    pure [("ssf", c)]
  else plift (.error .valueError)

/-- Lines 199-233: `validate_required_files`: existence pre-checks for the
chosen metric; returns the events performed and the boolean result.  An
unrecognized choice falls through every branch and returns True. -/
def validate_required_files (metric_choice : String) (cfg : Config) (fs : Fsys) :
    List FsEvent × Bool :=
  let bpath := stripDotDot cfg.existing_sample
  if (fs bpath).isNone then ([.exist bpath], false)
  else if metric_choice = "asf" ∨ metric_choice = "apa" then
    if (fs cfg.asf_apa_new).isNone then ([.exist bpath, .exist cfg.asf_apa_new], false)
    else ([.exist bpath, .exist cfg.asf_apa_new], true)
  else if metric_choice = "psf" then
    if (fs cfg.psf_new).isNone then ([.exist bpath, .exist cfg.psf_new], false)
    else ([.exist bpath, .exist cfg.psf_new], true)
  else if metric_choice = "ssf" then
    if (fs cfg.ssf_new).isNone then ([.exist bpath, .exist cfg.ssf_new], false)
    else ([.exist bpath, .exist cfg.ssf_new], true)
  else if metric_choice = "all" then
    if (fs cfg.asf_apa_new).isNone then ([.exist bpath, .exist cfg.asf_apa_new], false)
    else if (fs cfg.psf_new).isNone then
      ([.exist bpath, .exist cfg.asf_apa_new, .exist cfg.psf_new], false)
    else if (fs cfg.ssf_new).isNone then
      ([.exist bpath, .exist cfg.asf_apa_new, .exist cfg.psf_new, .exist cfg.ssf_new], false)
    else ([.exist bpath, .exist cfg.asf_apa_new, .exist cfg.psf_new, .exist cfg.ssf_new], true)
  else ([.exist bpath], true)

/-- The pure content of the lambda once the two cells are read. -/
def lambdaSpec (m mv : Value) : Except Err Value :=
  if notnullV m then
    if notnullV mv then do
      let p1 ← pyMulHundred m
      let s1 ← pyFormatTwo p1
      let p2 ← pyMulHundred m
      let d ← pySubNum p2 mv
      pure (Value.str (s1 ++ " (" ++ toString (roundHalfEven d) ++ ")"))
    else pure Value.null
  else pure Value.null

/-- The column labels of the joined frame built from the two projections. -/
def joinedKeys : List String :=
  existingCols.map (lsuffix metricCols "country")
    ++ (metricCols.filter (fun c => decide (c ≠ "country"))).map (rsuffix existingCols "country")

/-- Baseline table of the scenario in spec section 8 (claim C6). -/
def exA : Table :=
  ⟨existingCols,
   [[("run_id", Value.str "r1"), ("metric", Value.str "ASF"), ("country", Value.str "us"),
     ("provider", Value.str "p"), ("product", Value.str "prod"), ("sampling_run_id", Value.str "s1"),
     ("metric_value", Value.num (Rat.divInt 9123 100)), ("metric_value_lower", Value.null),
     ("metric_value_upper", Value.null)]]⟩

/-- New-metric table of the scenario in spec section 8 (claim C6). -/
def mtA : Table :=
  ⟨metricCols,
   [[("provider_release_version", Value.str "v1"), ("metric", Value.str "asf"),
     ("sample_size", Value.num 100), ("match", Value.num (Rat.divInt 935 1000)), ("lower", Value.null),
     ("upper", Value.null), ("matching_run_id", Value.str "m1"), ("provider_id", Value.str "pid"),
     ("country", Value.str "US"), ("sampling_run_id", Value.str "s2")]]⟩

/-- The joined table of the claim C1 witness data. -/
def joinedA : Table :=
  match comparisonJoined exA mtA "asf" with
  | .ok t => t
  | .error _ => ⟨[], []⟩

/-- The single row of `joinedA`. -/
def rowA1 : Row := joinedA.rows.getD 0 []

/-- Baseline table for the coercion analysis (claim C3): one asf row for
country US with numeric metric_value 90. -/
def exB : Table :=
  ⟨existingCols,
   [[("run_id", Value.str "r2"), ("metric", Value.str "asf"), ("country", Value.str "US"),
     ("provider", Value.str "p"), ("product", Value.str "prod"), ("sampling_run_id", Value.str "s1"),
     ("metric_value", Value.num 90), ("metric_value_lower", Value.null),
     ("metric_value_upper", Value.null)]]⟩

/-- New-metric table for claim C3, with an arbitrary string in `match`. -/
def mtB (s : String) : Table :=
  ⟨metricCols,
   [[("provider_release_version", Value.str "v1"), ("metric", Value.str "asf"),
     ("sample_size", Value.num 100), ("match", Value.str s), ("lower", Value.null),
     ("upper", Value.null), ("matching_run_id", Value.str "m1"), ("provider_id", Value.str "pid"),
     ("country", Value.str "US"), ("sampling_run_id", Value.str "s2")]]⟩

/-- An empty baseline table with the projection schema. -/
def exEmpty : Table := ⟨existingCols, []⟩

/-- An empty new-metric table with the projection schema. -/
def mtEmpty : Table := ⟨metricCols, []⟩

/-- A concrete configuration whose baseline path is configured relative to the
parent directory. -/
def cfgW : Config :=
  ⟨"../data/existing.csv", "data/asf_apa.csv", "data/psf.csv", "data/ssf.csv"⟩

/-- A concrete filesystem holding all four (empty) report files. -/
def fsW : Fsys := fun p =>
  if p = "data/existing.csv" then some exEmpty
  else if p = "data/asf_apa.csv" then some mtEmpty
  else if p = "data/psf.csv" then some mtEmpty
  else if p = "data/ssf.csv" then some mtEmpty
  else none

/-- The rename mapping of line 117. -/
def renPairs : List (String × String) :=
  [("match", "metric_new"), ("metric_value", "metric_existing")]

/-- The joined row produced for a baseline row when the new-metric side is
empty: the processed baseline fields followed by nulls. -/
def joinedRowA (r : Row) : Row :=
  leftPart existingCols metricCols "country"
    (mapRowCol "metric" strLowerV (mapRowCol "country" strUpperV (restrictRow existingCols r)))
  ++ rightNullPart existingCols metricCols "country"

/-- The joined row produced for a new-metric row when the baseline side is
empty: nulls (except the country key) followed by the projected metric fields. -/
def joinedRowB (r : Row) : Row :=
  leftNullPart existingCols metricCols "country" (getVD (restrictRow metricCols r) "country")
  ++ rightPart existingCols metricCols "country" (restrictRow metricCols r)

/-- The interesting-column selection of a null-extended `joinedRowA`. -/
def selRowA (r : Row) : Row :=
  restrictRow interestingColumns (joinedRowA r ++ [("comparison_metric_value", Value.null)])

/-- The interesting-column selection of a null-extended `joinedRowB`. -/
def selRowB (r : Row) : Row :=
  restrictRow interestingColumns (joinedRowB r ++ [("comparison_metric_value", Value.null)])

/-- `match` or `metric_value` cells that are numbers or null (what the
amended claim C8 assumes of the non-empty side). -/
def numOrNull : Value → Bool
  | .str _ => false
  | _ => true

/-- The selected row of a processed baseline-only row, with `w` standing for
the (transformed) metric_value cell. -/
def rowAproc (r : Row) (w : Value) : Row :=
  [("metric_existing", strLowerV (getVD r "metric")),
   ("country", strUpperV (getVD r "country")), ("provider", getVD r "provider"),
   ("product", getVD r "product"), ("sample_size", Value.null),
   ("metric_value", w), ("match", Value.null),
   ("matching_run_id", Value.null), ("comparison_metric_value", Value.null)]

/-- The selected row of a processed metric-only row, with `w` standing for the
(transformed) match cell. -/
def rowBproc (r : Row) (w : Value) : Row :=
  [("metric_existing", Value.null), ("country", getVD r "country"),
   ("provider", Value.null), ("product", Value.null),
   ("sample_size", getVD r "sample_size"), ("metric_value", Value.null),
   ("match", w), ("matching_run_id", getVD r "matching_run_id"),
   ("comparison_metric_value", Value.null)]

/-- Baseline table for the claim C8 counterexample: a matching row whose
metric_value is an unparsable string. -/
def exC8 : Table :=
  ⟨existingCols,
   [[("run_id", Value.str "r3"), ("metric", Value.str "asf"), ("country", Value.str "DE"),
     ("provider", Value.str "p"), ("product", Value.str "prod"), ("sampling_run_id", Value.str "s1"),
     ("metric_value", Value.str "n/a"), ("metric_value_lower", Value.null),
     ("metric_value_upper", Value.null)]]⟩

/-! Lemmas and the claim theorems. -/

theorem qmul_eq (a b : ℚ) : qmul a b = a * b := by
  rw [qmul, ← Rat.num_divInt_den a, ← Rat.num_divInt_den b, Rat.divInt_mul_divInt']
  rw [Rat.num_divInt_den a, Rat.num_divInt_den b]

theorem qsub_eq (a b : ℚ) : qsub a b = a - b := by
  have ha : (a.den : ℤ) ≠ 0 := Int.natCast_ne_zero.mpr a.den_nz
  have hb : (b.den : ℤ) ≠ 0 := Int.natCast_ne_zero.mpr b.den_nz
  rw [qsub, ← Rat.divInt_sub_divInt _ _ ha hb, Rat.num_divInt_den a, Rat.num_divInt_den b]

theorem ebind_ok {α β : Type} (a : α) (f : α → Except Err β) :
    (Except.ok a >>= f) = f a := rfl

theorem ebind_err {α β : Type} (e : Err) (f : α → Except Err β) :
    ((Except.error e : Except Err α) >>= f) = Except.error e := rfl

theorem epure {α : Type} (a : α) : (pure a : Except Err α) = Except.ok a := rfl

theorem exMapM_ok_forall_exists {α β : Type} {g : α → Except Err β} {P : β → Prop} :
    ∀ {xs : List α}, (∀ a ∈ xs, ∃ b, g a = .ok b ∧ P b) →
      ∃ ys, exMapM g xs = .ok ys ∧ ys.length = xs.length ∧ ∀ y ∈ ys, P y := by
  intro xs
  induction xs with
  | nil => intro _; exact ⟨[], rfl, rfl, by intro y hy; cases hy⟩
  | cons a as ih =>
    intro h
    obtain ⟨b, hb, hpb⟩ := h a (List.mem_cons_self a as)
    obtain ⟨ys, hys, hlen, hall⟩ := ih (fun x hx => h x (List.mem_cons_of_mem a hx))
    refine ⟨b :: ys, ?_, by simp [hlen], ?_⟩
    · simp [exMapM, hb, hys, ebind_ok, epure]
    · intro y hy
      rcases List.mem_cons.mp hy with rfl | hy'
      · exact hpb
      · exact hall y hy'

theorem exMapM_mem {α β : Type} {g : α → Except Err β} :
    ∀ {xs : List α} {ys : List β}, exMapM g xs = .ok ys →
      ∀ y ∈ ys, ∃ x ∈ xs, g x = .ok y := by
  intro xs
  induction xs with
  | nil =>
    intro ys h y hy
    simp only [exMapM] at h
    cases h
    cases hy
  | cons a as ih =>
    intro ys h y hy
    simp only [exMapM] at h
    cases hga : g a with
    | error e => rw [hga] at h; cases h
    | ok b =>
      rw [hga] at h
      cases hrest : exMapM g as with
      | error e => rw [hrest] at h; cases h
      | ok bs =>
        rw [hrest] at h
        simp only [ebind_ok, epure] at h
        cases h
        rcases List.mem_cons.mp hy with rfl | hy'
        · exact ⟨a, List.mem_cons_self a as, hga⟩
        · obtain ⟨x, hx, hgx⟩ := ih hrest y hy'
          exact ⟨x, List.mem_cons_of_mem a hx, hgx⟩

theorem exMapM_length {α β : Type} {g : α → Except Err β} :
    ∀ {xs : List α} {ys : List β}, exMapM g xs = .ok ys → ys.length = xs.length := by
  intro xs
  induction xs with
  | nil => intro ys h; simp only [exMapM] at h; cases h; rfl
  | cons a as ih =>
    intro ys h
    simp only [exMapM] at h
    cases hga : g a with
    | error e => rw [hga] at h; cases h
    | ok b =>
      rw [hga] at h
      cases hrest : exMapM g as with
      | error e => rw [hrest] at h; cases h
      | ok bs =>
        rw [hrest] at h
        simp only [ebind_ok, epure] at h
        cases h
        simp [ih hrest]

theorem mem_joinMap {α β : Type} {f : α → List β} {b : β} :
    ∀ {xs : List α}, b ∈ joinMap f xs ↔ ∃ a ∈ xs, b ∈ f a := by
  intro xs
  induction xs with
  | nil => simp [joinMap]
  | cons a as ih => simp [joinMap, ih, List.mem_append, or_and_right, exists_or]

theorem selectCols_ok {t : Table} {cols : List String}
    (h : ∀ c ∈ cols, c ∈ t.cols) :
    selectCols t cols = .ok ⟨cols, t.rows.map (restrictRow cols)⟩ := by
  unfold selectCols
  rw [if_pos]
  simpa [List.all_eq_true] using h

theorem selectCols_ok_elim {t u : Table} {cols : List String}
    (h : selectCols t cols = .ok u) :
    u = ⟨cols, t.rows.map (restrictRow cols)⟩ := by
  unfold selectCols at h
  split at h
  · cases h; rfl
  · cases h

theorem filterByMetric_ok_elim {t u : Table} {filt : String}
    (h : filterByMetric t filt = .ok u) :
    u = ⟨t.cols, t.rows.filter (fun r => metricMatch r filt)⟩ := by
  unfold filterByMetric at h
  split at h
  · cases h; rfl
  · cases h

theorem mapColE_ok_elim {t u : Table} {c : String} {f : Value → Value}
    (h : mapColE t c f = .ok u) :
    u = ⟨t.cols, t.rows.map (mapRowCol c f)⟩ := by
  unfold mapColE at h
  split at h
  · cases h; rfl
  · cases h

theorem projectReport_ok_elim {t u : Table} {filt : String} {cols : List String}
    (h : projectReport t filt cols = .ok u) :
    u = ⟨cols, (t.rows.filter (fun r => metricMatch r filt)).map (restrictRow cols)⟩ := by
  unfold projectReport at h
  cases hf : filterByMetric t filt with
  | error e => rw [hf] at h; cases h
  | ok tf =>
    rw [hf] at h
    have := filterByMetric_ok_elim hf
    subst this
    exact selectCols_ok_elim h

theorem addComparisonCol_ok_elim {t u : Table}
    (h : addComparisonCol t = .ok u) :
    u.cols = t.cols ++ ["comparison_metric_value"] ∧
      u.rows.length = t.rows.length ∧
      ∀ row ∈ u.rows, ∃ r0 ∈ t.rows, ∃ v,
        rowLambda r0 = .ok v ∧ row = r0 ++ [("comparison_metric_value", v)] := by
  unfold addComparisonCol at h
  cases hm : exMapM (fun r => do
      let v ← rowLambda r
      pure (r ++ [("comparison_metric_value", v)])) t.rows with
  | error e => rw [hm] at h; cases h
  | ok rows =>
    rw [hm] at h
    rw [ebind_ok, epure] at h
    cases h
    refine ⟨rfl, exMapM_length hm, ?_⟩
    intro row hrow
    obtain ⟨r0, hr0, hg⟩ := exMapM_mem hm row hrow
    cases hl : rowLambda r0 with
    | error e => rw [hl] at hg; cases hg
    | ok v =>
      rw [hl] at hg
      rw [ebind_ok, epure] at hg
      cases hg
      exact ⟨r0, hr0, v, hl, rfl⟩

theorem find?_append_of_some {α : Type} {p : α → Bool} {l1 : List α} (l2 : List α) {a : α}
    (h : l1.find? p = some a) : (l1 ++ l2).find? p = some a := by
  induction l1 with
  | nil => cases h
  | cons x xs ih =>
    cases hx : p x with
    | true =>
      rw [List.find?_cons_of_pos _ hx] at h
      rw [List.cons_append, List.find?_cons_of_pos _ hx]
      exact h
    | false =>
      rw [List.find?_cons_of_neg _ (by simp [hx])] at h
      rw [List.cons_append, List.find?_cons_of_neg _ (by simp [hx])]
      exact ih h

theorem find?_append_of_none {α : Type} {p : α → Bool} {l1 : List α} (l2 : List α)
    (h : l1.find? p = none) : (l1 ++ l2).find? p = l2.find? p := by
  induction l1 with
  | nil => rfl
  | cons x xs ih =>
    cases hx : p x with
    | true => rw [List.find?_cons_of_pos _ hx] at h; cases h
    | false =>
      rw [List.find?_cons_of_neg _ (by simp [hx])] at h
      rw [List.cons_append, List.find?_cons_of_neg _ (by simp [hx])]
      exact ih h

theorem getVD_append_left {r1 r2 : Row} {c : String}
    (h : c ∈ r1.map Prod.fst) : getVD (r1 ++ r2) c = getVD r1 c := by
  obtain ⟨p, hp, hpc⟩ := List.mem_map.mp h
  have hsome : (r1.find? (fun p => decide (p.1 = c))).isSome := by
    rw [List.find?_isSome]
    exact ⟨p, hp, by simp [hpc]⟩
  obtain ⟨a, ha⟩ := Option.isSome_iff_exists.mp hsome
  unfold getVD
  rw [find?_append_of_some r2 ha, ha]

theorem getVD_append_right {r1 r2 : Row} {c : String}
    (h : c ∉ r1.map Prod.fst) : getVD (r1 ++ r2) c = getVD r2 c := by
  have hnone : r1.find? (fun p => decide (p.1 = c)) = none := by
    rw [List.find?_eq_none]
    intro p hp
    simp only [decide_eq_true_eq]
    intro hpc
    exact h (List.mem_map.mpr ⟨p, hp, hpc⟩)
  unfold getVD
  rw [find?_append_of_none r2 hnone]

theorem getItem_of_mem {r : Row} {c : String}
    (h : c ∈ r.map Prod.fst) : getItem r c = .ok (getVD r c) := by
  obtain ⟨p, hp, hpc⟩ := List.mem_map.mp h
  have hsome : (r.find? (fun p => decide (p.1 = c))).isSome := by
    rw [List.find?_isSome]
    exact ⟨p, hp, by simp [hpc]⟩
  obtain ⟨a, ha⟩ := Option.isSome_iff_exists.mp hsome
  unfold getItem getVD
  rw [ha]
  rfl

theorem leftPart_keys {lcols rcols : List String} {key : String} {lr : Row} :
    (leftPart lcols rcols key lr).map Prod.fst = lcols.map (lsuffix rcols key) := by
  simp [leftPart, List.map_map, Function.comp]

theorem rightPart_keys {lcols rcols : List String} {key : String} {rr : Row} :
    (rightPart lcols rcols key rr).map Prod.fst
      = (rcols.filter (fun c => decide (c ≠ key))).map (rsuffix lcols key) := by
  simp [rightPart, List.map_map, Function.comp]

theorem rightNullPart_keys {lcols rcols : List String} {key : String} :
    (rightNullPart lcols rcols key).map Prod.fst
      = (rcols.filter (fun c => decide (c ≠ key))).map (rsuffix lcols key) := by
  simp [rightNullPart, List.map_map, Function.comp]

theorem leftNullPart_keys {lcols rcols : List String} {key : String} {kv : Value} :
    (leftNullPart lcols rcols key kv).map Prod.fst = lcols.map (lsuffix rcols key) := by
  simp [leftNullPart, List.map_map, Function.comp]

theorem mergeOuter_keys {l r : Table} {key : String} :
    ∀ row ∈ (mergeOuter l r key).rows,
      row.map Prod.fst = l.cols.map (lsuffix r.cols key)
        ++ (r.cols.filter (fun c => decide (c ≠ key))).map (rsuffix l.cols key) := by
  intro row hrow
  simp only [mergeOuter] at hrow
  rcases List.mem_append.mp hrow with hml | hmr
  · obtain ⟨lr, _, hin⟩ := mem_joinMap.mp hml
    by_cases he : (r.rows.filter
        (fun rr => decide (getVD rr key = getVD lr key))).isEmpty
    · rw [if_pos he] at hin
      rcases List.mem_singleton.mp hin with rfl
      rw [List.map_append, leftPart_keys, rightNullPart_keys]
    · rw [if_neg he] at hin
      obtain ⟨rr, _, rfl⟩ := List.mem_map.mp hin
      rw [List.map_append, leftPart_keys, rightPart_keys]
  · obtain ⟨rr, _, rfl⟩ := List.mem_map.mp hmr
    rw [List.map_append, leftNullPart_keys, rightPart_keys]

theorem rowLambda_eq_lambdaSpec {r : Row}
    (hm : "match" ∈ r.map Prod.fst) (hv : "metric_value" ∈ r.map Prod.fst) :
    rowLambda r = lambdaSpec (getVD r "match") (getVD r "metric_value") := by
  unfold rowLambda lambdaSpec
  rw [getItem_of_mem hm, ebind_ok]
  cases getVD r "match" with
  | null => rfl
  | str s =>
    simp only [notnullV, if_true]
    rw [getItem_of_mem hv, ebind_ok]
  | num q =>
    simp only [notnullV, if_true]
    rw [getItem_of_mem hv, ebind_ok]

theorem lambdaSpec_char {m mv v : Value} (h : lambdaSpec m mv = .ok v) :
    (v = .null ↔ m = .null ∨ mv = .null) ∧
    (∀ q w : ℚ, m = .num q → mv = .num w →
      v = .str (formatFixed2 (q * 100) ++ " ("
        ++ toString (roundHalfEven (q * 100 - w)) ++ ")")) := by
  cases m with
  | null =>
    simp only [lambdaSpec, notnullV, if_false, epure] at h
    cases h
    exact ⟨by simp, by intro q w hq; cases hq⟩
  | str s =>
    cases mv with
    | null =>
      simp only [lambdaSpec, notnullV, if_true, if_false, epure] at h
      cases h
      exact ⟨by simp, by intro q w hq; cases hq⟩
    | str s2 =>
      simp only [lambdaSpec, notnullV, if_true, pyMulHundred, pyFormatTwo,
        ebind_ok, ebind_err] at h
      cases h
    | num w =>
      simp only [lambdaSpec, notnullV, if_true, pyMulHundred, pyFormatTwo,
        ebind_ok, ebind_err] at h
      cases h
  | num q =>
    cases mv with
    | null =>
      simp only [lambdaSpec, notnullV, if_true, if_false, epure] at h
      cases h
      exact ⟨by simp, by intro q' w hq hw; cases hw⟩
    | str s2 =>
      simp only [lambdaSpec, notnullV, if_true, pyMulHundred, pyFormatTwo,
        pySubNum, ebind_ok, ebind_err] at h
      cases h
    | num w =>
      simp only [lambdaSpec, notnullV, if_true, pyMulHundred, pyFormatTwo,
        pySubNum, ebind_ok, epure] at h
      cases h
      constructor
      · simp
      · intro q' w' hq hw
        cases hq
        cases hw
        rw [qmul_eq, qsub_eq]

theorem comparisonJoined_ok_elim {ex mt t : Table} {filt : String}
    (h : comparisonJoined ex mt filt = .ok t) :
    ∃ ep mp : Table, ep.cols = existingCols ∧ mp.cols = metricCols ∧
      addComparisonCol (mergeOuter ep mp "country") = .ok t := by
  unfold comparisonJoined at h
  cases h1 : projectReport ex filt existingCols with
  | error e => rw [h1] at h; cases h
  | ok es =>
    rw [h1] at h
    dsimp only at h
    cases h2 : mapColE es "country" strUpperV with
    | error e => rw [h2] at h; cases h
    | ok e1 =>
      rw [h2] at h
      dsimp only at h
      cases h3 : mapColE e1 "metric" strLowerV with
      | error e => rw [h3] at h; cases h
      | ok ep =>
        rw [h3] at h
        dsimp only at h
        cases h4 : projectReport mt filt metricCols with
        | error e => rw [h4] at h; cases h
        | ok mp =>
          rw [h4] at h
          dsimp only at h
          refine ⟨ep, mp, ?_, ?_, h⟩
          · rw [mapColE_ok_elim h3]
            show e1.cols = existingCols
            rw [mapColE_ok_elim h2]
            show es.cols = existingCols
            rw [projectReport_ok_elim h1]
          · rw [projectReport_ok_elim h4]

theorem mem_joined_keys {ex mt t : Table} {filt : String}
    (hok : comparisonJoined ex mt filt = .ok t) :
    ∀ row ∈ t.rows, ∃ r0 v, rowLambda r0 = .ok v ∧
      row = r0 ++ [("comparison_metric_value", v)] ∧ r0.map Prod.fst = joinedKeys := by
  obtain ⟨ep, mp, hepc, hmpc, hadd⟩ := comparisonJoined_ok_elim hok
  intro row hrow
  obtain ⟨-, -, hmem⟩ := addComparisonCol_ok_elim hadd
  obtain ⟨r0, hr0, v, hl, hrw⟩ := hmem row hrow
  refine ⟨r0, v, hl, hrw, ?_⟩
  have := mergeOuter_keys r0 hr0
  rw [hepc, hmpc] at this
  exact this

/-- Claim C1: for every row of the joined comparison table,
`comparison_metric_value` is null iff that row's `match` or `metric_value` is
null/missing; otherwise it is the string `match*100` rendered with two
decimals, a space, and `round(match*100 - metric_value)` in parentheses. -/
theorem claim1_comparison_metric_value (ex mt t : Table) (filt : String)
    (hok : comparisonJoined ex mt filt = .ok t) :
    ∀ row ∈ t.rows,
      (getVD row "comparison_metric_value" = .null ↔
        getVD row "match" = .null ∨ getVD row "metric_value" = .null) ∧
      (∀ q w : ℚ, getVD row "match" = .num q → getVD row "metric_value" = .num w →
        getVD row "comparison_metric_value" = .str (formatFixed2 (q * 100) ++ " ("
          ++ toString (roundHalfEven (q * 100 - w)) ++ ")")) := by
  intro row hrow
  obtain ⟨r0, v, hl, hrw, hkeys⟩ := mem_joined_keys hok row hrow
  have hmk : "match" ∈ r0.map Prod.fst := by rw [hkeys]; decide
  have hvk : "metric_value" ∈ r0.map Prod.fst := by rw [hkeys]; decide
  have hck : "comparison_metric_value" ∉ r0.map Prod.fst := by rw [hkeys]; decide
  have hgc : getVD row "comparison_metric_value" = v := by
    rw [hrw, getVD_append_right hck]
    rfl
  have hgm : getVD row "match" = getVD r0 "match" := by
    rw [hrw, getVD_append_left hmk]
  have hgv : getVD row "metric_value" = getVD r0 "metric_value" := by
    rw [hrw, getVD_append_left hvk]
  rw [rowLambda_eq_lambdaSpec hmk hvk] at hl
  obtain ⟨hiff, hfmt⟩ := lambdaSpec_char hl
  constructor
  · rw [hgc, hgm, hgv]
    exact hiff
  · intro q w hq hw
    rw [hgc]
    exact hfmt q w (by rw [← hgm]; exact hq) (by rw [← hgv]; exact hw)

/-- Witness for claim C1 at concrete data. -/
theorem claim1_witness :
    (comparisonJoined exA mtA "asf" = .ok joinedA ∧ rowA1 ∈ joinedA.rows) ∧
    ((getVD rowA1 "comparison_metric_value" = .null ↔
        getVD rowA1 "match" = .null ∨ getVD rowA1 "metric_value" = .null) ∧
      (∀ q w : ℚ, getVD rowA1 "match" = .num q → getVD rowA1 "metric_value" = .num w →
        getVD rowA1 "comparison_metric_value" = .str (formatFixed2 (q * 100) ++ " ("
          ++ toString (roundHalfEven (q * 100 - w)) ++ ")"))) :=
  ⟨⟨rfl, by
    have hrows : joinedA.rows = [rowA1] := rfl
    rw [hrows]
    exact List.mem_singleton_self _⟩,
   claim1_comparison_metric_value exA mtA joinedA "asf" rfl rowA1 (by
    have hrows : joinedA.rows = [rowA1] := rfl
    rw [hrows]
    exact List.mem_singleton_self _)⟩

/-- Claim C6: the concrete scenario of spec section 8: baseline row
(country "us", metric "ASF", metric_value 91.23) and new row (country "US",
metric "asf", match 0.9350) compared with filter "asf" produce the single
output row with metric_existing 91.23, metric_new 93.5 and
comparison_metric_value "93.50 (2)" (the baseline country is uppercased
before the join, so the rows meet). -/
theorem claim6_scenario :
    compare_reports exA mtA "asf" = .ok
      ⟨["metric_existing", "country", "provider", "product", "sample_size",
        "metric_existing", "metric_new", "matching_run_id", "comparison_metric_value"],
       [[("metric_existing", Value.str "asf"), ("country", Value.str "US"),
         ("provider", Value.str "p"), ("product", Value.str "prod"),
         ("sample_size", Value.num 100), ("metric_existing", Value.num (Rat.divInt 9123 100)),
         ("metric_new", Value.num (Rat.divInt 935 10)), ("matching_run_id", Value.str "m1"),
         ("comparison_metric_value", Value.str "93.50 (2)")]]⟩ := rfl

theorem filterByMetric_congr {t : Table} {f1 f2 : String} (h : pyLower f1 = pyLower f2) :
    filterByMetric t f1 = filterByMetric t f2 := by
  unfold filterByMetric metricMatch
  simp only [h]

/-- Claim C7: the metric-label filter is case-insensitive on both sides, so
`compare_reports` with filter "asf" and with filter "ASF" agree on every pair
of input tables. -/
theorem claim7_filter_case_insensitive (ex mt : Table) :
    compare_reports ex mt "asf" = compare_reports ex mt "ASF" := by
  have h1 : ∀ u : Table, filterByMetric u "asf" = filterByMetric u "ASF" :=
    fun u => filterByMetric_congr rfl
  unfold compare_reports comparisonJoined projectReport
  rw [h1 ex, h1 mt]

/-- Claim C9: the filter/projection step keeps exactly the rows whose metric
label equals the filter case-insensitively, in their original relative order,
with the requested schema; no matching rows give an empty table with that
schema rather than an error. -/
theorem claim9_project (t : Table) (filt : String) (cols : List String)
    (hm : "metric" ∈ t.cols) (hc : ∀ c ∈ cols, c ∈ t.cols) :
    ∃ u, projectReport t filt cols = .ok u ∧
      u.cols = cols ∧
      u.rows = (t.rows.filter (fun r => metricMatch r filt)).map (restrictRow cols) ∧
      u.rows.length ≤ t.rows.length ∧
      (∀ r' ∈ u.rows, ∃ r ∈ t.rows, metricMatch r filt = true ∧ r' = restrictRow cols r) ∧
      ((∀ r ∈ t.rows, metricMatch r filt = false) → u.rows = []) := by
  have hfb : filterByMetric t filt
      = .ok ⟨t.cols, t.rows.filter (fun r => metricMatch r filt)⟩ := by
    unfold filterByMetric
    rw [if_pos hm]
  refine ⟨⟨cols, (t.rows.filter (fun r => metricMatch r filt)).map (restrictRow cols)⟩,
    ?_, rfl, rfl, ?_, ?_, ?_⟩
  · unfold projectReport
    rw [hfb]
    exact selectCols_ok hc
  · simp only [Table.rows, List.length_map]
    exact List.length_filter_le _ _
  · intro r' hr'
    simp only [Table.rows] at hr'
    obtain ⟨r, hrf, rfl⟩ := List.mem_map.mp hr'
    obtain ⟨hrt, hmm⟩ := List.mem_filter.mp hrf
    exact ⟨r, hrt, hmm, rfl⟩
  · intro hnone
    simp only [Table.rows, List.map_eq_nil_iff, List.filter_eq_nil_iff]
    intro r hr
    simp [hnone r hr]

/-- Witness for claim C9 at concrete data. -/
theorem claim9_witness :
    ("metric" ∈ exA.cols ∧ ∀ c ∈ existingCols, c ∈ exA.cols) ∧
    (∃ u, projectReport exA "asf" existingCols = .ok u ∧
      u.cols = existingCols ∧
      u.rows = (exA.rows.filter (fun r => metricMatch r "asf")).map (restrictRow existingCols) ∧
      u.rows.length ≤ exA.rows.length ∧
      (∀ r' ∈ u.rows, ∃ r ∈ exA.rows, metricMatch r "asf" = true ∧ r' = restrictRow existingCols r) ∧
      ((∀ r ∈ exA.rows, metricMatch r "asf" = false) → u.rows = [])) :=
  ⟨⟨by decide, by decide⟩, claim9_project exA "asf" existingCols (by decide) (by decide)⟩

/-- Counterexample to claim C3: an unparsable `match` value ("abc") makes
`compare_reports` raise (ValueError) instead of degrading to null. -/
theorem claim3_counterexample :
    compare_reports exB (mtB "abc") "asf" = .error .valueError := rfl

/-- Claim C3 amended: a non-numeric (string) `match` value in a row that joins
against a non-null `metric_value` makes `compare_reports` raise ValueError
(the f-string formats the string cell with `:.2f`) rather than yield null for
that field; only null cells degrade to null. -/
theorem claim3_amended (s : String) :
    compare_reports exB (mtB s) "asf" = .error .valueError := rfl

theorem pym_bind_ok {α β : Type} (es : List FsEvent) (a : α) (f : α → PyM β) :
    @Bind.bind PyM _ α β (es, Except.ok a) f = (es ++ (f a).1, (f a).2) := rfl

theorem pym_bind_err {α β : Type} (es : List FsEvent) (e : Err) (f : α → PyM β) :
    @Bind.bind PyM _ α β (es, Except.error e) f = (es, Except.error e) := rfl

theorem pym_pure {α : Type} (a : α) : (pure a : PyM α) = ([], Except.ok a) := rfl

/-- Counterexample to claim C4: metric_type "xyz" does raise ValueError, but
only after filesystem accesses: the baseline file is existence-checked twice
and loaded once before the error. -/
theorem claim4_counterexample :
    (compare_all_reports cfgW fsW "xyz").2 = .error .valueError ∧
    (compare_all_reports cfgW fsW "xyz").1 =
      [.exist "data/existing.csv", .exist "data/existing.csv", .load "data/existing.csv"] :=
  ⟨rfl, rfl⟩

/-- Claim C4 amended: an unrecognized metric_type raises ValueError, but only
after the baseline file has been existence-checked and loaded (no metric file
is touched); were the baseline missing, FileNotFoundError would preempt it. -/
theorem claim4_amended (cfg : Config) (fs : Fsys) (mt : String) (tb : Table)
    (hmt : mt ∉ ["asf", "apa", "psf", "ssf", "all"])
    (hfs : fs (stripDotDot cfg.existing_sample) = some tb) :
    compare_all_reports cfg fs mt =
      ([.exist (stripDotDot cfg.existing_sample), .exist (stripDotDot cfg.existing_sample),
        .load (stripDotDot cfg.existing_sample)], .error .valueError) := by
  have hne : ¬(mt = "asf") ∧ ¬(mt = "apa") ∧ ¬(mt = "psf") ∧ ¬(mt = "ssf") ∧ ¬(mt = "all") := by
    simp only [List.mem_cons, List.mem_singleton, not_or] at hmt
    tauto
  have hcb : checkBaseline fs (stripDotDot cfg.existing_sample)
      = ([.exist (stripDotDot cfg.existing_sample)], .ok ()) := by
    unfold checkBaseline
    rw [hfs]
  have hlr : load_report fs (stripDotDot cfg.existing_sample)
      = ([.exist (stripDotDot cfg.existing_sample), .load (stripDotDot cfg.existing_sample)],
         .ok tb) := by
    unfold load_report
    rw [hfs]
  unfold compare_all_reports
  dsimp only
  rw [hcb, pym_bind_ok, hlr, pym_bind_ok]
  simp only [if_neg hne.2.2.2.2, if_neg (by tauto : ¬(mt = "asf" ∨ mt = "apa")),
    if_neg hne.2.2.1, if_neg hne.2.2.2.1, plift]
  rfl

/-- Witness for claim C4 (amended) at concrete data. -/
theorem claim4_witness :
    ("xyz" ∉ ["asf", "apa", "psf", "ssf", "all"] ∧
      fsW (stripDotDot cfgW.existing_sample) = some exEmpty) ∧
    compare_all_reports cfgW fsW "xyz" =
      ([.exist (stripDotDot cfgW.existing_sample), .exist (stripDotDot cfgW.existing_sample),
        .load (stripDotDot cfgW.existing_sample)], .error .valueError) :=
  ⟨⟨by decide, rfl⟩, claim4_amended cfgW fsW "xyz" exEmpty (by decide) rfl⟩

theorem plift_ok {α : Type} (a : α) : plift (Except.ok a) = (([], Except.ok a) : PyM α) := rfl

/-- Counterexample to claim C5: in "all" mode the shared ASF/APA source file
is loaded twice, not once (line 143 and line 147 both call load_report on the
same path). -/
theorem claim5_counterexample :
    ((compare_all_reports cfgW fsW "all").1.filter
      (fun e => decide (e = FsEvent.load "data/asf_apa.csv"))).length = 2 := rfl

/-- Claim C5 amended: for metric_type "all" the baseline is loaded exactly
once, the shared ASF/APA source file is loaded twice — once for the asf
comparison and once for the apa comparison, both from the same configured
path, so both comparisons draw on the same file's data — PSF and SSF are
loaded once each from their own files, and the result holds exactly the four
comparisons keyed asf, apa, psf, ssf. -/
theorem claim5_amended (cfg : Config) (fs : Fsys) (tb ta tp ts c1 c2 c3 c4 : Table)
    (hb : fs (stripDotDot cfg.existing_sample) = some tb)
    (ha : fs cfg.asf_apa_new = some ta)
    (hp : fs cfg.psf_new = some tp)
    (hs : fs cfg.ssf_new = some ts)
    (h1 : compare_reports tb ta "asf" = .ok c1)
    (h2 : compare_reports tb ta "apa" = .ok c2)
    (h3 : compare_reports tb tp "psf" = .ok c3)
    (h4 : compare_reports tb ts "ssf" = .ok c4) :
    compare_all_reports cfg fs "all" =
      ([.exist (stripDotDot cfg.existing_sample), .exist (stripDotDot cfg.existing_sample),
        .load (stripDotDot cfg.existing_sample),
        .exist cfg.asf_apa_new, .load cfg.asf_apa_new,
        .exist cfg.asf_apa_new, .load cfg.asf_apa_new,
        .exist cfg.psf_new, .load cfg.psf_new,
        .exist cfg.ssf_new, .load cfg.ssf_new],
       .ok [("asf", c1), ("apa", c2), ("psf", c3), ("ssf", c4)]) := by
  have hcb : checkBaseline fs (stripDotDot cfg.existing_sample)
      = ([.exist (stripDotDot cfg.existing_sample)], .ok ()) := by
    unfold checkBaseline
    rw [hb]
  have hlb : load_report fs (stripDotDot cfg.existing_sample)
      = ([.exist (stripDotDot cfg.existing_sample), .load (stripDotDot cfg.existing_sample)],
         .ok tb) := by
    unfold load_report
    rw [hb]
  have hla : load_report fs cfg.asf_apa_new
      = ([.exist cfg.asf_apa_new, .load cfg.asf_apa_new], .ok ta) := by
    unfold load_report
    rw [ha]
  have hlp : load_report fs cfg.psf_new
      = ([.exist cfg.psf_new, .load cfg.psf_new], .ok tp) := by
    unfold load_report
    rw [hp]
  have hls : load_report fs cfg.ssf_new
      = ([.exist cfg.ssf_new, .load cfg.ssf_new], .ok ts) := by
    unfold load_report
    rw [hs]
  unfold compare_all_reports
  dsimp only
  rw [hcb, pym_bind_ok, hlb, pym_bind_ok, if_pos rfl]
  simp only [hla, hlp, hls, pym_bind_ok, h1, h2, h3, h4, plift_ok, pym_pure]
  rfl

/-- Witness for claim C5 (amended) at concrete data. -/
theorem claim5_witness :
    (fsW (stripDotDot cfgW.existing_sample) = some exEmpty ∧
      fsW cfgW.asf_apa_new = some mtEmpty ∧
      fsW cfgW.psf_new = some mtEmpty ∧ fsW cfgW.ssf_new = some mtEmpty ∧
      compare_reports exEmpty mtEmpty "asf" = .ok ⟨interestingColumns.map
        (renameKey [("match", "metric_new"), ("metric_value", "metric_existing")]), []⟩) ∧
    compare_all_reports cfgW fsW "all" =
      ([.exist (stripDotDot cfgW.existing_sample), .exist (stripDotDot cfgW.existing_sample),
        .load (stripDotDot cfgW.existing_sample),
        .exist cfgW.asf_apa_new, .load cfgW.asf_apa_new,
        .exist cfgW.asf_apa_new, .load cfgW.asf_apa_new,
        .exist cfgW.psf_new, .load cfgW.psf_new,
        .exist cfgW.ssf_new, .load cfgW.ssf_new],
       .ok [("asf", ⟨interestingColumns.map
              (renameKey [("match", "metric_new"), ("metric_value", "metric_existing")]), []⟩),
            ("apa", ⟨interestingColumns.map
              (renameKey [("match", "metric_new"), ("metric_value", "metric_existing")]), []⟩),
            ("psf", ⟨interestingColumns.map
              (renameKey [("match", "metric_new"), ("metric_value", "metric_existing")]), []⟩),
            ("ssf", ⟨interestingColumns.map
              (renameKey [("match", "metric_new"), ("metric_value", "metric_existing")]), []⟩)]) :=
  ⟨⟨rfl, rfl, rfl, rfl, rfl⟩,
   claim5_amended cfgW fsW exEmpty mtEmpty mtEmpty mtEmpty _ _ _ _
     rfl rfl rfl rfl rfl rfl rfl rfl⟩

theorem load_report_path (fs : Fsys) (p : String) :
    ∀ e ∈ (load_report fs p).1, eventPath e = p := by
  intro e he
  unfold load_report at he
  cases h : fs p <;> rw [h] at he <;> simp only [List.mem_cons, List.mem_singleton,
    List.not_mem_nil, or_false] at he
  · cases he; rfl
  · rcases he with rfl | rfl <;> rfl

theorem checkBaseline_path (fs : Fsys) (p : String) :
    ∀ e ∈ (checkBaseline fs p).1, eventPath e = p := by
  intro e he
  unfold checkBaseline at he
  cases h : fs p <;> rw [h] at he <;> simp only [List.mem_singleton] at he <;>
    cases he <;> rfl

theorem checkBaseline_head (fs : Fsys) (p : String) :
    (checkBaseline fs p).1.head? = some (.exist p) := by
  unfold checkBaseline
  cases fs p <;> rfl

theorem pym_bind_fst {α β : Type} (x : PyM α) (f : α → PyM β) {P : FsEvent → Prop}
    (hx : ∀ e ∈ x.1, P e) (hf : ∀ a, ∀ e ∈ (f a).1, P e) :
    ∀ e ∈ (@Bind.bind PyM _ α β x f).1, P e := by
  obtain ⟨es, r⟩ := x
  cases r with
  | error err =>
    rw [pym_bind_err]
    exact hx
  | ok a =>
    rw [pym_bind_ok]
    intro e he
    rcases List.mem_append.mp he with h1 | h2
    · exact hx e h1
    · exact hf a e h2

theorem pym_pure_fst {α : Type} (a : α) {P : FsEvent → Prop} :
    ∀ e ∈ (pure a : PyM α).1, P e := by
  intro e he
  cases he

theorem plift_fst {α : Type} (r : Except Err α) {P : FsEvent → Prop} :
    ∀ e ∈ (plift r).1, P e := by
  intro e he
  cases he

theorem pym_bind_head {α β : Type} (x : PyM α) (f : α → PyM β) (a : FsEvent)
    (hx : x.1.head? = some a) :
    (@Bind.bind PyM _ α β x f).1.head? = some a := by
  obtain ⟨es, r⟩ := x
  cases r with
  | error err => rw [pym_bind_err]; exact hx
  | ok b =>
    rw [pym_bind_ok]
    cases es with
    | nil => cases hx
    | cons c cs => exact hx

theorem pym_bind_plift_fst {α β : Type} (r : Except Err α) (f : α → PyM β) {P : FsEvent → Prop}
    (hf : ∀ a, ∀ e ∈ (f a).1, P e) :
    ∀ e ∈ (@Bind.bind PyM _ α β (plift r) f).1, P e :=
  pym_bind_fst _ _ (plift_fst _) hf

/-- Claim C10: every filesystem access of `compare_all_reports` and
`validate_required_files` is either at the baseline path with every `../`
removed (`stripDotDot` is Python's `replace('../','')`) or at one of the
asf_apa/psf/ssf paths taken verbatim from the configuration; the first access
is always the existence check of the stripped baseline path, so a baseline
path configured relative to a parent directory is silently re-resolved
relative to the working directory while the metric paths are not. -/
theorem claim10_path_stripping (cfg : Config) (fs : Fsys) (mt : String) :
    ((compare_all_reports cfg fs mt).1.head? = some (.exist (stripDotDot cfg.existing_sample))) ∧
    (∀ e ∈ (compare_all_reports cfg fs mt).1,
      eventPath e = stripDotDot cfg.existing_sample ∨ eventPath e = cfg.asf_apa_new ∨
        eventPath e = cfg.psf_new ∨ eventPath e = cfg.ssf_new) ∧
    ((validate_required_files mt cfg fs).1.head? = some (.exist (stripDotDot cfg.existing_sample))) ∧
    (∀ e ∈ (validate_required_files mt cfg fs).1,
      eventPath e = stripDotDot cfg.existing_sample ∨ eventPath e = cfg.asf_apa_new ∨
        eventPath e = cfg.psf_new ∨ eventPath e = cfg.ssf_new) := by
  refine ⟨?_, ?_, ?_, ?_⟩
  · unfold compare_all_reports
    dsimp only
    exact pym_bind_head _ _ _ (checkBaseline_head fs _)
  · unfold compare_all_reports
    dsimp only
    apply pym_bind_fst
    · intro e he
      exact Or.inl (checkBaseline_path fs _ e he)
    · intro u
      apply pym_bind_fst
      · intro e he
        exact Or.inl (load_report_path fs _ e he)
      · intro tb
        split
        · apply pym_bind_fst
          · intro e he
            exact Or.inr (Or.inl (load_report_path fs _ e he))
          · intro t1
            apply pym_bind_plift_fst
            intro t2
            apply pym_bind_fst
            · intro e he
              exact Or.inr (Or.inl (load_report_path fs _ e he))
            · intro t3
              apply pym_bind_plift_fst
              intro t4
              apply pym_bind_fst
              · intro e he
                exact Or.inr (Or.inr (Or.inl (load_report_path fs _ e he)))
              · intro t5
                apply pym_bind_plift_fst
                intro t6
                apply pym_bind_fst
                · intro e he
                  exact Or.inr (Or.inr (Or.inr (load_report_path fs _ e he)))
                · intro t7
                  apply pym_bind_plift_fst
                  intro t8
                  exact pym_pure_fst _
        · split
          · apply pym_bind_fst
            · intro e he
              exact Or.inr (Or.inl (load_report_path fs _ e he))
            · intro t1
              apply pym_bind_plift_fst
              intro t2
              exact pym_pure_fst _
          · split
            · apply pym_bind_fst
              · intro e he
                exact Or.inr (Or.inr (Or.inl (load_report_path fs _ e he)))
              · intro t1
                apply pym_bind_plift_fst
                intro t2
                exact pym_pure_fst _
            · split
              · apply pym_bind_fst
                · intro e he
                  exact Or.inr (Or.inr (Or.inr (load_report_path fs _ e he)))
                · intro t1
                  apply pym_bind_plift_fst
                  intro t2
                  exact pym_pure_fst _
              · exact plift_fst _
  · unfold validate_required_files
    dsimp only
    split
    · rfl
    · split
      · split <;> rfl
      · split
        · split <;> rfl
        · split
          · split <;> rfl
          · split
            · split
              · rfl
              · split
                · rfl
                · split <;> rfl
            · rfl
  · unfold validate_required_files
    dsimp only
    split
    · intro e he
      simp only [List.mem_singleton] at he
      cases he
      exact Or.inl rfl
    · split
      · split <;> intro e he <;>
          simp only [List.mem_cons, List.mem_singleton, List.not_mem_nil, or_false] at he <;>
          rcases he with rfl | rfl
        · exact Or.inl rfl
        · exact Or.inr (Or.inl rfl)
        · exact Or.inl rfl
        · exact Or.inr (Or.inl rfl)
      · split
        · split <;> intro e he <;>
            simp only [List.mem_cons, List.mem_singleton, List.not_mem_nil, or_false] at he <;>
            rcases he with rfl | rfl
          · exact Or.inl rfl
          · exact Or.inr (Or.inr (Or.inl rfl))
          · exact Or.inl rfl
          · exact Or.inr (Or.inr (Or.inl rfl))
        · split
          · split <;> intro e he <;>
              simp only [List.mem_cons, List.mem_singleton, List.not_mem_nil, or_false] at he <;>
              rcases he with rfl | rfl
            · exact Or.inl rfl
            · exact Or.inr (Or.inr (Or.inr rfl))
            · exact Or.inl rfl
            · exact Or.inr (Or.inr (Or.inr rfl))
          · split
            · split
              · intro e he
                simp only [List.mem_cons, List.mem_singleton, List.not_mem_nil, or_false] at he
                rcases he with rfl | rfl
                · exact Or.inl rfl
                · exact Or.inr (Or.inl rfl)
              · split
                · intro e he
                  simp only [List.mem_cons, List.mem_singleton, List.not_mem_nil, or_false] at he
                  rcases he with rfl | rfl | rfl
                  · exact Or.inl rfl
                  · exact Or.inr (Or.inl rfl)
                  · exact Or.inr (Or.inr (Or.inl rfl))
                · split <;> intro e he <;>
                    simp only [List.mem_cons, List.mem_singleton, List.not_mem_nil, or_false] at he <;>
                    rcases he with rfl | rfl | rfl | rfl
                  · exact Or.inl rfl
                  · exact Or.inr (Or.inl rfl)
                  · exact Or.inr (Or.inr (Or.inl rfl))
                  · exact Or.inr (Or.inr (Or.inr rfl))
                  · exact Or.inl rfl
                  · exact Or.inr (Or.inl rfl)
                  · exact Or.inr (Or.inr (Or.inl rfl))
                  · exact Or.inr (Or.inr (Or.inr rfl))
            · intro e he
              simp only [List.mem_singleton] at he
              cases he
              exact Or.inl rfl

theorem getVD_leftPart_country (lr : Row) (x : Row) :
    getVD (leftPart existingCols metricCols "country" lr ++ x) "country"
      = getVD lr "country" := rfl

theorem getVD_leftNullPart_country (kv : Value) (x : Row) :
    getVD (leftNullPart existingCols metricCols "country" kv ++ x) "country" = kv := rfl

/-- Claim C2: the join of `compare_reports` (line 102) is a full outer join on
country over the two projected tables: every country value present in either
side appears in a row of the joined output, and when the other side lacks
that country, that side's fields of the row are null. -/
theorem claim2_outer_join (l r : Table)
    (hl : l.cols = existingCols) (hr : r.cols = metricCols) (c : Value)
    (hc : (∃ lr ∈ l.rows, getVD lr "country" = c) ∨ (∃ rr ∈ r.rows, getVD rr "country" = c)) :
    ∃ row ∈ (mergeOuter l r "country").rows,
      getVD row "country" = c ∧
      ((¬ ∃ rr ∈ r.rows, getVD rr "country" = c) →
        ∀ col ∈ metricCols, col ≠ "country" →
          getVD row (rsuffix existingCols "country" col) = Value.null) ∧
      ((¬ ∃ lr ∈ l.rows, getVD lr "country" = c) →
        ∀ col ∈ existingCols, col ≠ "country" →
          getVD row (lsuffix metricCols "country" col) = Value.null) := by
  obtain ⟨lc, lrows⟩ := l
  obtain ⟨rc, rrows⟩ := r
  dsimp only at hl hr hc ⊢
  subst hl
  subst hr
  by_cases hlex : ∃ lr ∈ lrows, getVD lr "country" = c
  · obtain ⟨lr, hlr, hlc⟩ := hlex
    by_cases hrex : ∃ rr ∈ rrows, getVD rr "country" = c
    · obtain ⟨rr, hrr, hrc⟩ := hrex
      have hrin : rr ∈ rrows.filter (fun rr => decide (getVD rr "country" = getVD lr "country")) :=
        List.mem_filter.mpr ⟨hrr, decide_eq_true (hrc.trans hlc.symm)⟩
      refine ⟨leftPart existingCols metricCols "country" lr
          ++ rightPart existingCols metricCols "country" rr, ?_, ?_, ?_, ?_⟩
      · simp only [mergeOuter]
        apply List.mem_append_left
        apply mem_joinMap.mpr
        refine ⟨lr, hlr, ?_⟩
        rw [if_neg (by simp [List.isEmpty_iff, List.ne_nil_of_mem hrin])]
        exact List.mem_map.mpr ⟨rr, hrin, rfl⟩
      · rw [getVD_leftPart_country, hlc]
      · intro hn
        exact absurd ⟨rr, hrr, hrc⟩ hn
      · intro hn
        exact absurd ⟨lr, hlr, hlc⟩ hn
    · have hms : rrows.filter (fun rr => decide (getVD rr "country" = getVD lr "country")) = [] := by
        rw [List.filter_eq_nil_iff]
        intro rr hrr
        simp only [decide_eq_true_eq]
        intro heq
        exact hrex ⟨rr, hrr, heq.trans hlc⟩
      refine ⟨leftPart existingCols metricCols "country" lr
          ++ rightNullPart existingCols metricCols "country", ?_, ?_, ?_, ?_⟩
      · simp only [mergeOuter]
        apply List.mem_append_left
        apply mem_joinMap.mpr
        refine ⟨lr, hlr, ?_⟩
        rw [hms]
        simp
      · rw [getVD_leftPart_country, hlc]
      · intro _ col hcol hne
        fin_cases hcol
        · rfl
        · rfl
        · rfl
        · rfl
        · rfl
        · rfl
        · rfl
        · rfl
        · exact absurd rfl hne
        · rfl
      · intro hn
        exact absurd ⟨lr, hlr, hlc⟩ hn
  · rcases hc with hlex' | ⟨rr, hrr, hrc⟩
    · exact absurd hlex' hlex
    · have hany : (lrows.any (fun lr => decide (getVD lr "country" = getVD rr "country"))) = false := by
        rw [List.any_eq_false]
        intro lr hlr
        simp only [decide_eq_true_eq]
        intro heq
        exact hlex ⟨lr, hlr, heq.trans hrc⟩
      refine ⟨leftNullPart existingCols metricCols "country" (getVD rr "country")
          ++ rightPart existingCols metricCols "country" rr, ?_, ?_, ?_, ?_⟩
      · simp only [mergeOuter]
        apply List.mem_append_right
        apply List.mem_map.mpr
        refine ⟨rr, ?_, rfl⟩
        exact List.mem_filter.mpr ⟨hrr, by rw [hany]; rfl⟩
      · rw [getVD_leftNullPart_country, hrc]
      · intro hn
        exact absurd ⟨rr, hrr, hrc⟩ hn
      · intro _ col hcol hne
        fin_cases hcol
        · rfl
        · rfl
        · exact absurd rfl hne
        · rfl
        · rfl
        · rfl
        · rfl
        · rfl
        · rfl

/-- Witness for claim C2 at concrete data. -/
theorem claim2_witness :
    (exA.cols = existingCols ∧ mtA.cols = metricCols ∧
      ((∃ lr ∈ exA.rows, getVD lr "country" = Value.str "us") ∨
        (∃ rr ∈ mtA.rows, getVD rr "country" = Value.str "us"))) ∧
    (∃ row ∈ (mergeOuter exA mtA "country").rows,
      getVD row "country" = Value.str "us" ∧
      ((¬ ∃ rr ∈ mtA.rows, getVD rr "country" = Value.str "us") →
        ∀ col ∈ metricCols, col ≠ "country" →
          getVD row (rsuffix existingCols "country" col) = Value.null) ∧
      ((¬ ∃ lr ∈ exA.rows, getVD lr "country" = Value.str "us") →
        ∀ col ∈ existingCols, col ≠ "country" →
          getVD row (lsuffix metricCols "country" col) = Value.null)) :=
  ⟨⟨rfl, rfl, Or.inl ⟨exA.rows.getD 0 [], by
      have : exA.rows = [exA.rows.getD 0 []] := rfl
      rw [this]
      exact ⟨List.mem_singleton_self _, rfl⟩⟩⟩,
   claim2_outer_join exA mtA rfl rfl (Value.str "us")
     (Or.inl ⟨exA.rows.getD 0 [], by
        have : exA.rows = [exA.rows.getD 0 []] := rfl
        rw [this]
        exact List.mem_singleton_self _, rfl⟩)⟩

theorem exMapM_ok_of {α β : Type} {g : α → Except Err β} {h : α → β} :
    ∀ {xs : List α}, (∀ a ∈ xs, g a = .ok (h a)) → exMapM g xs = .ok (xs.map h) := by
  intro xs
  induction xs with
  | nil => intro _; rfl
  | cons a as ih =>
    intro hall
    simp only [exMapM, hall a (List.mem_cons_self a as),
      ih (fun x hx => hall x (List.mem_cons_of_mem a hx)), ebind_ok, epure, List.map_cons]

theorem joinMap_singleton {α β : Type} (g : α → β) :
    ∀ xs : List α, joinMap (fun a => [g a]) xs = xs.map g := by
  intro xs
  induction xs with
  | nil => rfl
  | cons a as ih => simp [joinMap, ih]

theorem filter_true_eq {α : Type} (l : List α) : l.filter (fun _ => true) = l := by
  induction l with
  | nil => rfl
  | cons a as ih => simp [List.filter, ih]

theorem selRowA_eq (r : Row) :
    selRowA r = [("metric_existing", strLowerV (getVD r "metric")),
      ("country", strUpperV (getVD r "country")), ("provider", getVD r "provider"),
      ("product", getVD r "product"), ("sample_size", Value.null),
      ("metric_value", getVD r "metric_value"), ("match", Value.null),
      ("matching_run_id", Value.null), ("comparison_metric_value", Value.null)] := rfl

theorem selRowB_eq (r : Row) :
    selRowB r = [("metric_existing", Value.null), ("country", getVD r "country"),
      ("provider", Value.null), ("product", Value.null),
      ("sample_size", getVD r "sample_size"), ("metric_value", Value.null),
      ("match", getVD r "match"), ("matching_run_id", getVD r "matching_run_id"),
      ("comparison_metric_value", Value.null)] := rfl

theorem rowLambda_joinedRowA (r : Row) :
    rowLambda (joinedRowA r) = .ok Value.null := rfl

theorem rowLambda_joinedRowB (r : Row) (h : numOrNull (getVD r "match") = true) :
    rowLambda (joinedRowB r) = .ok Value.null := by
  have hgi : getItem (joinedRowB r) "match" = .ok (getVD r "match") := rfl
  unfold rowLambda
  rw [hgi, ebind_ok]
  cases hv : getVD r "match" with
  | null => rfl
  | str s => rw [hv] at h; cases h
  | num q => rfl

theorem mapColE_ok (t : Table) (c : String) (f : Value → Value) (h : c ∈ t.cols) :
    mapColE t c f = .ok ⟨t.cols, t.rows.map (mapRowCol c f)⟩ := by
  unfold mapColE
  rw [if_pos h]

theorem comparisonJoined_eval (ex mtT : Table) (filt : String)
    (hexm : "metric" ∈ ex.cols) (hexc : ∀ col ∈ existingCols, col ∈ ex.cols)
    (hmtm : "metric" ∈ mtT.cols) (hmtc : ∀ col ∈ metricCols, col ∈ mtT.cols) :
    comparisonJoined ex mtT filt = addComparisonCol (mergeOuter
      ⟨existingCols, (ex.rows.filter (fun r => metricMatch r filt)).map
        (fun r => mapRowCol "metric" strLowerV (mapRowCol "country" strUpperV
          (restrictRow existingCols r)))⟩
      ⟨metricCols, (mtT.rows.filter (fun r => metricMatch r filt)).map (restrictRow metricCols)⟩
      "country") := by
  have hpe : projectReport ex filt existingCols = .ok ⟨existingCols,
      (ex.rows.filter (fun r => metricMatch r filt)).map (restrictRow existingCols)⟩ := by
    unfold projectReport filterByMetric
    rw [if_pos hexm]
    exact selectCols_ok hexc
  have hpm : projectReport mtT filt metricCols = .ok ⟨metricCols,
      (mtT.rows.filter (fun r => metricMatch r filt)).map (restrictRow metricCols)⟩ := by
    unfold projectReport filterByMetric
    rw [if_pos hmtm]
    exact selectCols_ok hmtc
  have hm1 : mapColE (⟨existingCols, (ex.rows.filter (fun r => metricMatch r filt)).map
        (restrictRow existingCols)⟩ : Table) "country" strUpperV
      = .ok ⟨existingCols, ((ex.rows.filter (fun r => metricMatch r filt)).map
        (restrictRow existingCols)).map (mapRowCol "country" strUpperV)⟩ :=
    mapColE_ok _ _ _ (show "country" ∈ existingCols from by decide)
  have hm2 : mapColE (⟨existingCols, ((ex.rows.filter (fun r => metricMatch r filt)).map
        (restrictRow existingCols)).map (mapRowCol "country" strUpperV)⟩ : Table)
        "metric" strLowerV
      = .ok ⟨existingCols, (((ex.rows.filter (fun r => metricMatch r filt)).map
        (restrictRow existingCols)).map (mapRowCol "country" strUpperV)).map
        (mapRowCol "metric" strLowerV)⟩ :=
    mapColE_ok _ _ _ (show "metric" ∈ existingCols from by decide)
  unfold comparisonJoined
  rw [hpe]
  dsimp only
  rw [hm1]
  dsimp only
  rw [hm2]
  dsimp only
  rw [hpm]
  dsimp only
  rw [List.map_map, List.map_map]
  rfl

theorem mergeOuter_empty_right (L : List Row) :
    mergeOuter ⟨existingCols, L⟩ ⟨metricCols, []⟩ "country"
      = ⟨joinedKeys, L.map (fun lr => leftPart existingCols metricCols "country" lr
          ++ rightNullPart existingCols metricCols "country")⟩ := by
  simp only [mergeOuter]
  refine congrArg (Table.mk _) ?_
  rw [show (joinMap (fun lr =>
      let ms := (([] : List Row)).filter (fun rr => decide (getVD rr "country" = getVD lr "country"))
      if ms.isEmpty then [leftPart existingCols metricCols "country" lr
        ++ rightNullPart existingCols metricCols "country"]
      else ms.map (fun rr => leftPart existingCols metricCols "country" lr
        ++ rightPart existingCols metricCols "country" rr)) L)
    = joinMap (fun lr => [leftPart existingCols metricCols "country" lr
        ++ rightNullPart existingCols metricCols "country"]) L from rfl]
  rw [joinMap_singleton]
  simp

theorem mergeOuter_empty_left (R : List Row) :
    mergeOuter ⟨existingCols, []⟩ ⟨metricCols, R⟩ "country"
      = ⟨joinedKeys, R.map (fun rr => leftNullPart existingCols metricCols "country"
          (getVD rr "country") ++ rightPart existingCols metricCols "country" rr)⟩ := by
  simp only [mergeOuter]
  refine congrArg (Table.mk _) ?_
  rw [show (R.filter (fun rr =>
      ! ([] : List Row).any (fun lr => decide (getVD lr "country" = getVD rr "country"))))
    = R.filter (fun _ => true) from rfl]
  rw [filter_true_eq]
  rfl

theorem comparisonJoined_empty_right (ex mtT : Table) (filt : String)
    (hexm : "metric" ∈ ex.cols) (hexc : ∀ col ∈ existingCols, col ∈ ex.cols)
    (hmtm : "metric" ∈ mtT.cols) (hmtc : ∀ col ∈ metricCols, col ∈ mtT.cols)
    (hmt0 : mtT.rows = []) :
    comparisonJoined ex mtT filt = .ok ⟨joinedKeys ++ ["comparison_metric_value"],
      (ex.rows.filter (fun r => metricMatch r filt)).map
        (fun r => joinedRowA r ++ [("comparison_metric_value", Value.null)])⟩ := by
  rw [comparisonJoined_eval ex mtT filt hexm hexc hmtm hmtc, hmt0]
  rw [show ((([] : List Row).filter (fun r => metricMatch r filt)).map (restrictRow metricCols))
    = ([] : List Row) from rfl]
  rw [mergeOuter_empty_right]
  have hrows : exMapM (fun r => do
        let v ← rowLambda r
        pure (r ++ [("comparison_metric_value", v)]))
      (((ex.rows.filter (fun r => metricMatch r filt)).map
          (fun r => mapRowCol "metric" strLowerV (mapRowCol "country" strUpperV
            (restrictRow existingCols r)))).map
        (fun lr => leftPart existingCols metricCols "country" lr
          ++ rightNullPart existingCols metricCols "country"))
      = .ok ((((ex.rows.filter (fun r => metricMatch r filt)).map
          (fun r => mapRowCol "metric" strLowerV (mapRowCol "country" strUpperV
            (restrictRow existingCols r)))).map
        (fun lr => leftPart existingCols metricCols "country" lr
          ++ rightNullPart existingCols metricCols "country")).map
        (fun row => row ++ [("comparison_metric_value", Value.null)])) := by
    apply exMapM_ok_of
    intro a ha
    rw [List.map_map] at ha
    obtain ⟨r, hr, rfl⟩ := List.mem_map.mp ha
    show (do
        let v ← rowLambda (joinedRowA r)
        pure (joinedRowA r ++ [("comparison_metric_value", v)])) = _
    rw [rowLambda_joinedRowA, ebind_ok, epure]
    rfl
  unfold addComparisonCol
  dsimp only
  rw [hrows, ebind_ok, epure]
  simp only [List.map_map]
  rfl

theorem comparisonJoined_empty_left (ex mtT : Table) (filt : String)
    (hexm : "metric" ∈ ex.cols) (hexc : ∀ col ∈ existingCols, col ∈ ex.cols)
    (hmtm : "metric" ∈ mtT.cols) (hmtc : ∀ col ∈ metricCols, col ∈ mtT.cols)
    (hex0 : ex.rows = [])
    (hnum : ∀ r ∈ mtT.rows, numOrNull (getVD r "match") = true) :
    comparisonJoined ex mtT filt = .ok ⟨joinedKeys ++ ["comparison_metric_value"],
      (mtT.rows.filter (fun r => metricMatch r filt)).map
        (fun r => joinedRowB r ++ [("comparison_metric_value", Value.null)])⟩ := by
  rw [comparisonJoined_eval ex mtT filt hexm hexc hmtm hmtc, hex0]
  rw [show ((([] : List Row).filter (fun r => metricMatch r filt)).map
      (fun r => mapRowCol "metric" strLowerV (mapRowCol "country" strUpperV
        (restrictRow existingCols r)))) = ([] : List Row) from rfl]
  rw [mergeOuter_empty_left]
  have hrows : exMapM (fun r => do
        let v ← rowLambda r
        pure (r ++ [("comparison_metric_value", v)]))
      (((mtT.rows.filter (fun r => metricMatch r filt)).map (restrictRow metricCols)).map
        (fun rr => leftNullPart existingCols metricCols "country" (getVD rr "country")
          ++ rightPart existingCols metricCols "country" rr))
      = .ok ((((mtT.rows.filter (fun r => metricMatch r filt)).map (restrictRow metricCols)).map
        (fun rr => leftNullPart existingCols metricCols "country" (getVD rr "country")
          ++ rightPart existingCols metricCols "country" rr)).map
        (fun row => row ++ [("comparison_metric_value", Value.null)])) := by
    apply exMapM_ok_of
    intro a ha
    rw [List.map_map] at ha
    obtain ⟨r, hr, rfl⟩ := List.mem_map.mp ha
    have hrmem : r ∈ mtT.rows := (List.mem_filter.mp hr).1
    show (do
        let v ← rowLambda (joinedRowB r)
        pure (joinedRowB r ++ [("comparison_metric_value", v)])) = _
    rw [rowLambda_joinedRowB r (hnum r hrmem), ebind_ok, epure]
    rfl
  unfold addComparisonCol
  dsimp only
  rw [hrows, ebind_ok, epure]
  simp only [List.map_map]
  rfl

theorem selRowA_eq_rowAproc (r : Row) : selRowA r = rowAproc r (getVD r "metric_value") := rfl

theorem selRowB_eq_rowBproc (r : Row) : selRowB r = rowBproc r (getVD r "match") := rfl

theorem procMatch_selRowA (r : Row) :
    procRow "match" true (selRowA r) = .ok (selRowA r) := rfl

theorem procMV_rowA_null (r : Row) :
    procRow "metric_value" false (rowAproc r Value.null) = .ok (rowAproc r Value.null) := rfl

theorem procMV_rowA_num (r : Row) (q : ℚ) :
    procRow "metric_value" false (rowAproc r (Value.num q))
      = .ok (rowAproc r (Value.num (roundTwo q))) := rfl

theorem procMatch_rowB_null (r : Row) :
    procRow "match" true (rowBproc r Value.null) = .ok (rowBproc r Value.null) := rfl

theorem procMatch_rowB_num (r : Row) (q : ℚ) :
    procRow "match" true (rowBproc r (Value.num q))
      = .ok (rowBproc r (Value.num (roundTwo (qmul q 100)))) := rfl

theorem procMV_rowB (r : Row) (w : Value) :
    procRow "metric_value" false (rowBproc r w) = .ok (rowBproc r w) := rfl

theorem renameA_nulls (r : Row) (w : Value) :
    getVD (renameRow renPairs (rowAproc r w)) "sample_size" = Value.null ∧
    getVD (renameRow renPairs (rowAproc r w)) "metric_new" = Value.null ∧
    getVD (renameRow renPairs (rowAproc r w)) "matching_run_id" = Value.null ∧
    getVD (renameRow renPairs (rowAproc r w)) "comparison_metric_value" = Value.null :=
  ⟨rfl, rfl, rfl, rfl⟩

theorem renameB_nulls (r : Row) (w : Value) :
    getVD (renameRow renPairs (rowBproc r w)) "metric_existing" = Value.null ∧
    getVD (renameRow renPairs (rowBproc r w)) "provider" = Value.null ∧
    getVD (renameRow renPairs (rowBproc r w)) "product" = Value.null ∧
    getVD (renameRow renPairs (rowBproc r w)) "comparison_metric_value" = Value.null :=
  ⟨rfl, rfl, rfl, rfl⟩

theorem compare_reports_tail (ex mtT : Table) (filt : String) (X : List Row)
    {P : Row → Prop}
    (hcj : comparisonJoined ex mtT filt = .ok ⟨joinedKeys ++ ["comparison_metric_value"], X⟩)
    (hstep : ∀ row ∈ X, ∃ b1 b2,
      procRow "match" true (restrictRow interestingColumns row) = .ok b1 ∧
      procRow "metric_value" false b1 = .ok b2 ∧ P (renameRow renPairs b2)) :
    ∃ out, compare_reports ex mtT filt = .ok out ∧
      out.cols = interestingColumns.map (renameKey renPairs) ∧
      out.rows.length = X.length ∧ ∀ row ∈ out.rows, P row := by
  obtain ⟨ys, hys, hylen, hyall⟩ := @exMapM_ok_forall_exists Row Row
    (procRow "match" true)
    (fun b1 => ∃ b2, procRow "metric_value" false b1 = .ok b2 ∧ P (renameRow renPairs b2))
    (X.map (restrictRow interestingColumns))
    (by
      intro a ha
      obtain ⟨row, hrow, rfl⟩ := List.mem_map.mp ha
      obtain ⟨b1, b2, h1, h2, hp⟩ := hstep row hrow
      exact ⟨b1, h1, b2, h2, hp⟩)
  obtain ⟨zs, hzs, hzlen, hzall⟩ := @exMapM_ok_forall_exists Row Row
    (procRow "metric_value" false)
    (fun b2 => P (renameRow renPairs b2))
    ys
    (by
      intro b1 hb1
      obtain ⟨b2, h2, hp⟩ := hyall b1 hb1
      exact ⟨b2, h2, hp⟩)
  unfold compare_reports
  rw [hcj]
  try dsimp only
  rw [@selectCols_ok ⟨joinedKeys ++ ["comparison_metric_value"], X⟩ interestingColumns
    (show ∀ c ∈ interestingColumns, c ∈ joinedKeys ++ ["comparison_metric_value"] from by decide)]
  try dsimp only
  unfold processNumCol
  rw [if_pos (show "match" ∈ interestingColumns from by decide)]
  try dsimp only
  rw [hys]
  try dsimp only
  rw [if_pos (show "metric_value" ∈ interestingColumns from by decide)]
  try dsimp only
  rw [hzs]
  try dsimp only
  refine ⟨_, rfl, rfl, ?_, ?_⟩
  · show (zs.map (renameRow renPairs)).length = X.length
    rw [List.length_map, hzlen, hylen, List.length_map]
  · intro row hrow
    obtain ⟨b2, hb2, rfl⟩ := List.mem_map.mp hrow
    exact hzall b2 hb2

/-- Claim C8 amended: with one side empty (required columns, no rows) and the
numeric cells (`metric_value` resp. `match`) of the non-empty side numbers or
null, `compare_reports` succeeds and returns exactly one row per filtered row
of the non-empty side, with the fields contributed by the empty side null;
with both sides empty the output is empty.  (Without the numeric proviso the
coercion of claim C3 can raise, see the claim C8 counterexample.) -/
theorem claim8_amended (ex mtT : Table) (filt : String)
    (hexm : "metric" ∈ ex.cols) (hexc : ∀ col ∈ existingCols, col ∈ ex.cols)
    (hmtm : "metric" ∈ mtT.cols) (hmtc : ∀ col ∈ metricCols, col ∈ mtT.cols) :
    (mtT.rows = [] → (∀ r ∈ ex.rows, numOrNull (getVD r "metric_value") = true) →
      ∃ out, compare_reports ex mtT filt = .ok out ∧
        out.rows.length = (ex.rows.filter (fun r => metricMatch r filt)).length ∧
        ∀ row ∈ out.rows, getVD row "sample_size" = Value.null ∧
          getVD row "metric_new" = Value.null ∧ getVD row "matching_run_id" = Value.null ∧
          getVD row "comparison_metric_value" = Value.null) ∧
    (ex.rows = [] → (∀ r ∈ mtT.rows, numOrNull (getVD r "match") = true) →
      ∃ out, compare_reports ex mtT filt = .ok out ∧
        out.rows.length = (mtT.rows.filter (fun r => metricMatch r filt)).length ∧
        ∀ row ∈ out.rows, getVD row "metric_existing" = Value.null ∧
          getVD row "provider" = Value.null ∧ getVD row "product" = Value.null ∧
          getVD row "comparison_metric_value" = Value.null) ∧
    (ex.rows = [] → mtT.rows = [] →
      ∃ out, compare_reports ex mtT filt = .ok out ∧ out.rows = []) := by
  have parta : mtT.rows = [] → (∀ r ∈ ex.rows, numOrNull (getVD r "metric_value") = true) →
      ∃ out, compare_reports ex mtT filt = .ok out ∧
        out.rows.length = (ex.rows.filter (fun r => metricMatch r filt)).length ∧
        ∀ row ∈ out.rows, getVD row "sample_size" = Value.null ∧
          getVD row "metric_new" = Value.null ∧ getVD row "matching_run_id" = Value.null ∧
          getVD row "comparison_metric_value" = Value.null := by
    intro hmt0 hnum
    have hstep : ∀ row ∈ (ex.rows.filter (fun r => metricMatch r filt)).map
        (fun r => joinedRowA r ++ [("comparison_metric_value", Value.null)]),
        ∃ b1 b2, procRow "match" true (restrictRow interestingColumns row) = .ok b1 ∧
          procRow "metric_value" false b1 = .ok b2 ∧
          (getVD (renameRow renPairs b2) "sample_size" = Value.null ∧
            getVD (renameRow renPairs b2) "metric_new" = Value.null ∧
            getVD (renameRow renPairs b2) "matching_run_id" = Value.null ∧
            getVD (renameRow renPairs b2) "comparison_metric_value" = Value.null) := by
      intro row hrow
      obtain ⟨r, hr, rfl⟩ := List.mem_map.mp hrow
      have hnum' : numOrNull (getVD r "metric_value") = true :=
        hnum r (List.mem_filter.mp hr).1
      cases hv : getVD r "metric_value" with
      | null =>
        refine ⟨selRowA r, rowAproc r Value.null, procMatch_selRowA r, ?_, renameA_nulls r _⟩
        rw [selRowA_eq_rowAproc r, hv]
        exact procMV_rowA_null r
      | str s =>
        rw [hv] at hnum'
        cases hnum'
      | num q =>
        refine ⟨selRowA r, rowAproc r (Value.num (roundTwo q)), procMatch_selRowA r, ?_,
          renameA_nulls r _⟩
        rw [selRowA_eq_rowAproc r, hv]
        exact procMV_rowA_num r q
    obtain ⟨out, hok, hcols, hlen, hall⟩ := @compare_reports_tail ex mtT filt
      ((ex.rows.filter (fun r => metricMatch r filt)).map
        (fun r => joinedRowA r ++ [("comparison_metric_value", Value.null)]))
      (fun row => getVD row "sample_size" = Value.null ∧ getVD row "metric_new" = Value.null ∧
        getVD row "matching_run_id" = Value.null ∧
        getVD row "comparison_metric_value" = Value.null)
      (comparisonJoined_empty_right ex mtT filt hexm hexc hmtm hmtc hmt0) hstep
    refine ⟨out, hok, ?_, hall⟩
    rw [hlen, List.length_map]
  have partb : ex.rows = [] → (∀ r ∈ mtT.rows, numOrNull (getVD r "match") = true) →
      ∃ out, compare_reports ex mtT filt = .ok out ∧
        out.rows.length = (mtT.rows.filter (fun r => metricMatch r filt)).length ∧
        ∀ row ∈ out.rows, getVD row "metric_existing" = Value.null ∧
          getVD row "provider" = Value.null ∧ getVD row "product" = Value.null ∧
          getVD row "comparison_metric_value" = Value.null := by
    intro hex0 hnum
    have hstep : ∀ row ∈ (mtT.rows.filter (fun r => metricMatch r filt)).map
        (fun r => joinedRowB r ++ [("comparison_metric_value", Value.null)]),
        ∃ b1 b2, procRow "match" true (restrictRow interestingColumns row) = .ok b1 ∧
          procRow "metric_value" false b1 = .ok b2 ∧
          (getVD (renameRow renPairs b2) "metric_existing" = Value.null ∧
            getVD (renameRow renPairs b2) "provider" = Value.null ∧
            getVD (renameRow renPairs b2) "product" = Value.null ∧
            getVD (renameRow renPairs b2) "comparison_metric_value" = Value.null) := by
      intro row hrow
      obtain ⟨r, hr, rfl⟩ := List.mem_map.mp hrow
      have hnum' : numOrNull (getVD r "match") = true :=
        hnum r (List.mem_filter.mp hr).1
      cases hv : getVD r "match" with
      | null =>
        refine ⟨rowBproc r Value.null, rowBproc r Value.null, ?_, procMV_rowB r _,
          renameB_nulls r _⟩
        show procRow "match" true (selRowB r) = _
        rw [selRowB_eq_rowBproc r, hv]
        exact procMatch_rowB_null r
      | str s =>
        rw [hv] at hnum'
        cases hnum'
      | num q =>
        refine ⟨rowBproc r (Value.num (roundTwo (qmul q 100))),
          rowBproc r (Value.num (roundTwo (qmul q 100))), ?_, procMV_rowB r _,
          renameB_nulls r _⟩
        show procRow "match" true (selRowB r) = _
        rw [selRowB_eq_rowBproc r, hv]
        exact procMatch_rowB_num r q
    obtain ⟨out, hok, hcols, hlen, hall⟩ := @compare_reports_tail ex mtT filt
      ((mtT.rows.filter (fun r => metricMatch r filt)).map
        (fun r => joinedRowB r ++ [("comparison_metric_value", Value.null)]))
      (fun row => getVD row "metric_existing" = Value.null ∧ getVD row "provider" = Value.null ∧
        getVD row "product" = Value.null ∧
        getVD row "comparison_metric_value" = Value.null)
      (comparisonJoined_empty_left ex mtT filt hexm hexc hmtm hmtc hex0 hnum) hstep
    refine ⟨out, hok, ?_, hall⟩
    rw [hlen, List.length_map]
  refine ⟨parta, partb, ?_⟩
  intro hex0 hmt0
  obtain ⟨out, hok, hlen, -⟩ := parta hmt0 (by
    intro r hr
    rw [hex0] at hr
    cases hr)
  refine ⟨out, hok, ?_⟩
  rw [hex0] at hlen
  exact List.eq_nil_of_length_eq_zero hlen

/-- Counterexample to claim C8: the new-metric side is empty (required
columns, no rows), yet compare_reports fails, because the baseline has an
unparsable metric_value and `astype(float)` raises. -/
theorem claim8_counterexample :
    compare_reports exC8 mtEmpty "asf" = .error .valueError := rfl

/-- Witness for claim C8 (amended) at concrete data. -/
theorem claim8_witness :
    ("metric" ∈ exEmpty.cols ∧ (∀ col ∈ existingCols, col ∈ exEmpty.cols) ∧
      "metric" ∈ mtEmpty.cols ∧ (∀ col ∈ metricCols, col ∈ mtEmpty.cols) ∧
      exEmpty.rows = [] ∧ mtEmpty.rows = []) ∧
    (∃ out, compare_reports exEmpty mtEmpty "asf" = .ok out ∧ out.rows = []) :=
  ⟨⟨by decide, by decide, by decide, by decide, rfl, rfl⟩,
   (claim8_amended exEmpty mtEmpty "asf" (by decide) (by decide) (by decide) (by decide)).2.2
     rfl rfl⟩
